import Mathlib

/-!
Verification of the health-monitoring multiplexer
(`ConnectionManagerWithHealth.ts`): identifier namespace codec,
response-router state machine, ping scheduler and facade.

JavaScript strings are modelled as `List Char`, JS numbers that occur as
JSON-RPC identifiers and counters as `Int`/`Nat`, and the host
`JSON.parse` / `JSON.stringify` primitives as an executable codec over a
`Json` parse-tree type.
-/

namespace SCHealth

/-- JSON values as produced by `JSON.parse`.  Numbers are modelled as
integers (the identifiers and counters this module manipulates are
integral); objects keep their fields in insertion order, mirroring JS
property order. -/
inductive Json where
  | null : Json
  | bool (b : Bool) : Json
  | num (n : Int) : Json
  | str (s : List Char) : Json
  | arr (xs : List Json) : Json
  | obj (fields : List (List Char × Json)) : Json

/-- Decimal digit to its character, as `String(n)` renders it in JS. -/
def digitChar (d : Nat) : Char := Char.ofNat (48 + d)

/-- Decimal rendering, most significant digit first, accumulated into
`acc`; the fuel dominates the number so the recursion is structural and
kernel-reducible. -/
def natToCharsAux (fuel : Nat) (n : Nat) (acc : List Char) : List Char :=
  match fuel with
  | 0 => acc
  | f + 1 =>
    if n < 10 then digitChar n :: acc
    else natToCharsAux f (n / 10) (digitChar (n % 10) :: acc)

/-- Decimal rendering of a natural number, as JS `String(n)`. -/
def natToChars (n : Nat) : List Char := natToCharsAux (n + 1) n []

/-- Numeric value of a decimal digit character. -/
def charVal (c : Char) : Nat := c.toNat - 48

/-- Positional value of a decimal digit string (most significant first). -/
def charsToNat (s : List Char) : Nat :=
  Nat.ofDigits 10 ((s.map charVal).reverse)

/-- Decimal rendering of an integer, as `JSON.stringify` renders an
integral JS number. -/
def intToChars (i : Int) : List Char :=
  if i < 0 then '-' :: natToChars i.natAbs else natToChars i.natAbs

def isDigitB (c : Char) : Bool := 48 ≤ c.toNat && c.toNat ≤ 57

/-- Lower-case hex digit, as used by `JSON.stringify` in `\u00xx` escapes. -/
def hexChar (d : Nat) : Char :=
  if d < 10 then Char.ofNat (48 + d) else Char.ofNat (87 + d)

/-- The escape `JSON.stringify` emits for one character of a string:
quote and backslash get a backslash escape, the five short control
escapes are used where they exist, other control characters become
`\u00xx`, and everything else is emitted literally. -/
def escChar (c : Char) : List Char :=
  if c = '"' then ['\\', '"']
  else if c = '\\' then ['\\', '\\']
  else if c.toNat = 8 then ['\\', 'b']
  else if c.toNat = 9 then ['\\', 't']
  else if c.toNat = 10 then ['\\', 'n']
  else if c.toNat = 12 then ['\\', 'f']
  else if c.toNat = 13 then ['\\', 'r']
  else if c.toNat < 32 then
    ['\\', 'u', '0', '0', hexChar (c.toNat / 16), hexChar (c.toNat % 16)]
  else [c]

def escChars : List Char → List Char
  | [] => []
  | c :: cs => escChar c ++ escChars cs

mutual

/-- `JSON.stringify` on a parse tree (compact output, insertion-order
object fields, double-quoted strings). -/
def Json.encode : Json → List Char
  | .null => "null".toList
  | .bool true => "true".toList
  | .bool false => "false".toList
  | .num i => intToChars i
  | .str s => '"' :: (escChars s ++ ['"'])
  | .arr xs => '[' :: (encodeItems xs ++ [']'])
  | .obj fs => Char.ofNat 123 :: (encodeFields fs ++ [Char.ofNat 125])

def encodeItems : List Json → List Char
  | [] => []
  | [x] => Json.encode x
  | x :: y :: xs => Json.encode x ++ ',' :: encodeItems (y :: xs)

def encodeFields : List (List Char × Json) → List Char
  | [] => []
  | [(k, v)] => '"' :: (escChars k ++ ['"', ':'] ++ Json.encode v)
  | (k, v) :: f :: fs =>
      ('"' :: (escChars k ++ ['"', ':'] ++ Json.encode v)) ++
        ',' :: encodeFields (f :: fs)

end

/-- Value of a short escape code character after a backslash. -/
def escCode (e : Char) : Option Char :=
  if e = '"' then some '"'
  else if e = '\\' then some '\\'
  else if e = '/' then some '/'
  else if e = 'b' then some (Char.ofNat 8)
  else if e = 'f' then some (Char.ofNat 12)
  else if e = 'n' then some (Char.ofNat 10)
  else if e = 'r' then some (Char.ofNat 13)
  else if e = 't' then some (Char.ofNat 9)
  else none

/-- Value of a hex digit character (upper or lower case). -/
def hexVal (c : Char) : Option Nat :=
  if 48 ≤ c.toNat ∧ c.toNat ≤ 57 then some (c.toNat - 48)
  else if 97 ≤ c.toNat ∧ c.toNat ≤ 102 then some (c.toNat - 87)
  else if 65 ≤ c.toNat ∧ c.toNat ≤ 70 then some (c.toNat - 55)
  else none

/-- Prepend a decoded character to a string-parse result. -/
def prependChar (c : Char) : Option (List Char × List Char) → Option (List Char × List Char)
  | some (s, r) => some (c :: s, r)
  | none => none

mutual

/-- Parse the body of a JSON string literal (after the opening quote) up
to and including the closing quote; returns the decoded characters and
the remaining input. -/
def parseStringBody : List Char → Option (List Char × List Char)
  | [] => none
  | c :: rest =>
    if c = '"' then some ([], rest)
    else if c = '\\' then parseEscape rest
    else prependChar c (parseStringBody rest)

/-- Parse what follows a backslash inside a JSON string literal. -/
def parseEscape : List Char → Option (List Char × List Char)
  | [] => none
  | e :: rest2 =>
    if e = 'u' then parseUnicode rest2
    else
      match escCode e with
      | some ec => prependChar ec (parseStringBody rest2)
      | none => none

/-- Parse the four hex digits of a `\uXXXX` escape. -/
def parseUnicode : List Char → Option (List Char × List Char)
  | h1 :: h2 :: h3 :: h4 :: rest3 =>
    match hexVal h1, hexVal h2, hexVal h3, hexVal h4 with
    | some a, some b, some c3, some d =>
        prependChar (Char.ofNat (((a * 16 + b) * 16 + c3) * 16 + d))
          (parseStringBody rest3)
    | _, _, _, _ => none
  | _ => none

end

def isWsB (c : Char) : Bool := c = ' ' || c = '\t' || c = '\n' || c = '\r'

def skipWs (s : List Char) : List Char := s.dropWhile isWsB

/-- Match the tail of a literal keyword (`null`, `true`, `false`). -/
def expectLit (lit : List Char) (v : Json) (rest : List Char) :
    Option (Json × List Char) :=
  if lit.isPrefixOf rest then some (v, rest.drop lit.length) else none

mutual

/-- Fueled JSON value parser (model of the recursive descent performed by
`JSON.parse`); the fuel only bounds nesting/iteration of composite
values, scalars never consume it. -/
def parseValue : Nat → List Char → Option (Json × List Char)
  | 0, _ => none
  | _ + 1, [] => none
  | fuel + 1, c :: rest =>
    if c = '"' then
      match parseStringBody rest with
      | some (s, r) => some (.str s, r)
      | none => none
    else if c = '-' then
      match rest.takeWhile isDigitB with
      | [] => none
      | ds => some (.num (-(charsToNat ds : Int)), rest.dropWhile isDigitB)
    else if isDigitB c then
      some (.num (charsToNat ((c :: rest).takeWhile isDigitB)),
            (c :: rest).dropWhile isDigitB)
    else if c = 'n' then expectLit "ull".toList Json.null rest
    else if c = 't' then expectLit "rue".toList (Json.bool true) rest
    else if c = 'f' then expectLit "alse".toList (Json.bool false) rest
    else if c = '[' then
      match skipWs rest with
      | ']' :: r => some (.arr [], r)
      | r => match parseItems fuel r with
             | some (xs, r2) => some (.arr xs, r2)
             | none => none
    else if c.toNat = 123 then
      match skipWs rest with
      | c2 :: r =>
        if c2.toNat = 125 then some (.obj [], r)
        else match parseFields fuel (c2 :: r) with
             | some (fs, r2) => some (.obj fs, r2)
             | none => none
      | [] => none
    else none

/-- Comma-separated array items up to the closing bracket. -/
def parseItems : Nat → List Char → Option (List Json × List Char)
  | 0, _ => none
  | fuel + 1, cs =>
    match parseValue fuel (skipWs cs) with
    | some (v, r) =>
      match skipWs r with
      | ',' :: r2 =>
        match parseItems fuel r2 with
        | some (vs, r3) => some (v :: vs, r3)
        | none => none
      | ']' :: r2 => some ([v], r2)
      | _ => none
    | none => none

/-- Comma-separated `"key":value` object fields up to the closing brace. -/
def parseFields : Nat → List Char → Option (List (List Char × Json) × List Char)
  | 0, _ => none
  | fuel + 1, cs =>
    match skipWs cs with
    | c :: r =>
      if c = '"' then
        match parseStringBody r with
        | some (k, r2) =>
          match skipWs r2 with
          | ':' :: r3 =>
            match parseValue fuel (skipWs r3) with
            | some (v, r4) =>
              match skipWs r4 with
              | ',' :: r5 =>
                match parseFields fuel r5 with
                | some (fs, r6) => some ((k, v) :: fs, r6)
                | none => none
              | c2 :: r5 =>
                if c2.toNat = 125 then some ([(k, v)], r5) else none
              | [] => none
            | none => none
          | _ => none
        | none => none
      else none
    | [] => none

end

/-- Model of `JSON.parse`: parse one JSON value surrounded by optional
whitespace; `none` models the `SyntaxError` throw. -/
def Json.parse (s : List Char) : Option Json :=
  let t := skipWs s
  match parseValue (2 * t.length + 2) t with
  | some (v, r) => if skipWs r = [] then some v else none
  | none => none

/-- The identifier payloads the round-trip claim quantifies over: JSON
strings, (integral) numbers and null. -/
def isIdScalar : Json → Bool
  | .str _ => true
  | .num _ => true
  | .null => true
  | _ => false


/-! ### Association-list maps (JS `Map` / object-property semantics) -/

/-- `Map.get` / property lookup (first matching key). -/
def alookup {α β : Type} [DecidableEq α] : List (α × β) → α → Option β
  | [], _ => none
  | (k, v) :: t, a => if k = a then some v else alookup t a

/-- `Map.set` / property assignment: update in place when the key is
present, append otherwise (JS insertion order). -/
def aset {α β : Type} [DecidableEq α] : List (α × β) → α → β → List (α × β)
  | [], a, b => [(a, b)]
  | (k, v) :: t, a, b => if k = a then (a, b) :: t else (k, v) :: aset t a b

/-- `Map.delete`. -/
def adel {α β : Type} [DecidableEq α] : List (α × β) → α → List (α × β)
  | [], _ => []
  | (k, v) :: t, a => if k = a then adel t a else (k, v) :: adel t a

/-! ### JS value helpers -/

/-- Property access on a parsed JSON value when the base is known not to
be `null`/`undefined`: objects look the field up, primitives and arrays
yield `undefined` (`none`). -/
def jsField (v : Json) (k : List Char) : Option Json :=
  match v with
  | .obj fs => alookup fs k
  | _ => none

/-- JS truthiness of a possibly-`undefined` parsed JSON value. -/
def jsTruthy : Option Json → Bool
  | none => false
  | some .null => false
  | some (.bool b) => b
  | some (.num n) => !(n = 0)
  | some (.str s) => !(s = [])
  | some (.arr _) => true
  | some (.obj _) => true

/-- `===` on primitive parsed values; composite values compare by object
identity, and values materialised by distinct `JSON.parse` calls are
never identical, so composites compare unequal here. -/
def jsPrimEq : Json → Json → Bool
  | .null, .null => true
  | .bool a, .bool b => a = b
  | .num a, .num b => a = b
  | .str a, .str b => a = b
  | _, _ => false

/-- `a === b` where either side may be `undefined` (`none`). -/
def jsStrictEq : Option Json → Option Json → Bool
  | none, none => true
  | some x, some y => jsPrimEq x y
  | _, _ => false

/-- `v === "lit"` for a string literal. -/
def jsIsStr (v : Option Json) (s : List Char) : Bool :=
  match v with
  | some (.str t) => t = s
  | _ => false

/-- `s.startsWith(p)`. -/
def listStartsWith (s p : List Char) : Bool := p.isPrefixOf s

/-! ### Wire constants -/

def idK : List Char := "id".toList
def methodK : List Char := "method".toList
def paramsK : List Char := "params".toList
def resultK : List Char := "result".toList
def subscriptionK : List Char := "subscription".toList
def eventK : List Char := "event".toList
def peersK : List Char := "peers".toList
def jsonrpcK : List Char := "jsonrpc".toList
def externTag : List Char := "extern:".toList
def readySubTag : List Char := "ready-sub:".toList
def healthCheckTag : List Char := "health-check:".toList
def followEventM : List Char := "chainHead_unstable_followEvent".toList
def initializedLit : List Char := "initialized".toList
def stopLit : List Char := "stop".toList

/-! ### State of `ConnectionManagerWithHealth` -/

/-- Per-chain health record (the `Chain` interface).  `peers` and
`readySubscriptionId` hold whatever parsed JSON values the responses
carried (`none` = absent/undefined). -/
structure Chain where
  readySubscriptionId : Option Json
  isSyncing : Bool
  peers : Option Json

/-- The mutable private state: `#sandboxesChains` keyed by sandbox id
(modelled as `Nat`) then chain id, and the shared counter
`#nextHealthCheckRqId`. -/
structure MState where
  sandboxesChains : List (Nat × List (List Char × Chain))
  nextHealthCheckRqId : Nat

def initialState : MState := ⟨[], 0⟩

/-- Items produced by the inner manager's `nextSandboxMessage`
(`ToApplication`); `rpc` carries the raw `jsonRpcMessage` string. -/
inductive InnerItem where
  | chainReady (chainId : List Char) : InnerItem
  | rpc (chainId : List Char) (jsonRpcMessage : List Char) : InnerItem
  | errItem (chainId : List Char) : InnerItem
  | otherItem : InnerItem

/-- What one call of the outer `nextSandboxMessage` returns: a surfaced
inner item or the synthetic `chains-status-changed`. -/
inductive OutMsg where
  | item (i : InnerItem) : OutMsg
  | chainsStatusChanged : OutMsg

/-- JS exceptions this layer can raise: the `throw new Error()` bug
marker, a `TypeError` (property access/assignment on
`undefined`/`null`/primitive), or a `SyntaxError` from `JSON.parse`. -/
inductive JsErr where
  | bugError : JsErr
  | typeError : JsErr
  | parseError : JsErr

/-- Outcome of handling one inner item inside the consumption loop. -/
inductive Control where
  | ret (m : OutMsg) : Control
  | cont : Control
  | thrown (e : JsErr) : Control

/-- Outcome of one outer `nextSandboxMessage` call over a finite prefix
of the inner stream. -/
inductive LoopResult where
  | returned (m : OutMsg) : LoopResult
  | pending : LoopResult
  | failed (e : JsErr) : LoopResult
  | unknownSandbox : LoopResult

/-- A JSON-RPC request handed to `inner.sandboxMessage`; `req` is the
object passed to `JSON.stringify` (the wire payload is
`Json.encode req`). -/
structure SentRpc where
  sandboxId : Nat
  chainId : List Char
  req : Json

/-- `"ready-sub:" + counter`. -/
def readySubId (n : Nat) : List Char := readySubTag ++ natToChars n

/-- `"health-check:" + counter`. -/
def healthCheckId (n : Nat) : List Char := healthCheckTag ++ natToChars n

/-- The `chainHead_unstable_follow([true])` request object. -/
def followReq (n : Nat) : Json :=
  .obj [(jsonrpcK, .str "2.0".toList), (idK, .str (readySubId n)),
        (methodK, .str "chainHead_unstable_follow".toList),
        (paramsK, .arr [.bool true])]

/-- The `system_health([])` request object. -/
def healthReq (n : Nat) : Json :=
  .obj [(jsonrpcK, .str "2.0".toList), (idK, .str (healthCheckId n)),
        (methodK, .str "system_health".toList), (paramsK, .arr [])]

/-- Rewrite one chain's record in place (the code mutates the aliased
`chain` object held in the nested maps). -/
def updateChain (st : MState) (sid : Nat) (cid : List Char) (f : Chain → Chain) :
    MState :=
  match alookup st.sandboxesChains sid with
  | none => st
  | some m =>
    match alookup m cid with
    | none => st
    | some ch =>
      { st with sandboxesChains := aset st.sandboxesChains sid (aset m cid (f ch)) }

/-- Handling of one `rpc` item whose payload parsed to an object: the
demultiplexing on the response id and the follow-event notification
machinery of `nextSandboxMessage`. -/
def processRpcObj (st : MState) (sid : Nat) (cid : List Char)
    (payload : List Char) (fs : List (List Char × Json))
    (chainOpt : Option Chain) : MState × List SentRpc × Control :=
  let idOpt := alookup fs idK
  if jsTruthy idOpt then
    match idOpt with
    | some (.str s) =>
      if listStartsWith s externTag then
        match Json.parse (s.drop externTag.length) with
        | none => (st, [], .thrown .parseError)
        | some newId =>
          (st, [],
           .ret (.item (.rpc cid (Json.encode (.obj (aset fs idK newId))))))
      else if listStartsWith s healthCheckTag then
        match chainOpt with
        | none => (st, [], .thrown .typeError)
        | some _ =>
          match alookup fs resultK with
          | none => (st, [], .thrown .typeError)
          | some .null => (st, [], .thrown .typeError)
          | some r =>
            (updateChain st sid cid (fun c => { c with peers := jsField r peersK }),
             [], .ret .chainsStatusChanged)
      else if listStartsWith s readySubTag then
        match chainOpt with
        | none => (st, [], .thrown .typeError)
        | some _ =>
          (updateChain st sid cid
             (fun c => { c with readySubscriptionId := alookup fs resultK }),
           [], .cont)
      else (st, [], .thrown .bugError)
    | some _ => (st, [], .thrown .typeError)
    | none => (st, [], .thrown .typeError)
  else
    if jsIsStr (alookup fs methodK) followEventM then
      match alookup fs paramsK with
      | none => (st, [], .thrown .typeError)
      | some .null => (st, [], .thrown .typeError)
      | some p =>
        match chainOpt with
        | none => (st, [], .thrown .typeError)
        | some ch =>
          if jsStrictEq (jsField p subscriptionK) ch.readySubscriptionId then
            match jsField p resultK with
            | none => (st, [], .thrown .typeError)
            | some .null => (st, [], .thrown .typeError)
            | some r =>
              if jsIsStr (jsField r eventK) initializedLit then
                ({ updateChain st sid cid (fun c => { c with isSyncing := false })
                     with nextHealthCheckRqId := st.nextHealthCheckRqId + 1 },
                 [⟨sid, cid, healthReq st.nextHealthCheckRqId⟩],
                 .ret .chainsStatusChanged)
              else if jsIsStr (jsField r eventK) stopLit then
                (updateChain st sid cid
                   (fun c => { c with readySubscriptionId := none }),
                 [⟨sid, cid, followReq st.nextHealthCheckRqId⟩],
                 .cont)
              else (st, [], .cont)
          else (st, [], .ret (.item (.rpc cid payload)))
    else (st, [], .ret (.item (.rpc cid payload)))

/-- Handling of one item pulled from the inner manager inside the
consumption loop of `nextSandboxMessage`. -/
def processItem (st : MState) (sid : Nat) : InnerItem → MState × List SentRpc × Control
  | .chainReady cid =>
    let chains' :=
      match alookup st.sandboxesChains sid with
      | none => st.sandboxesChains
      | some m => aset st.sandboxesChains sid (aset m cid ⟨none, true, some (.num 0)⟩)
    ({ sandboxesChains := chains',
       nextHealthCheckRqId := st.nextHealthCheckRqId + 1 },
     [⟨sid, cid, followReq st.nextHealthCheckRqId⟩],
     .ret (.item (.chainReady cid)))
  | .rpc cid payload =>
    match alookup st.sandboxesChains sid with
    | none => (st, [], .thrown .typeError)
    | some m =>
      match Json.parse payload with
      | none => (st, [], .thrown .parseError)
      | some (.obj fs) => processRpcObj st sid cid payload fs (alookup m cid)
      | some .null => (st, [], .thrown .typeError)
      | some _ => (st, [], .ret (.item (.rpc cid payload)))
  | .errItem cid =>
    let chains' :=
      match alookup st.sandboxesChains sid with
      | none => st.sandboxesChains
      | some m => aset st.sandboxesChains sid (adel m cid)
    ({ st with sandboxesChains := chains' }, [], .ret (.item (.errItem cid)))
  | .otherItem => (st, [], .ret (.item .otherItem))

/-- One call of the outer `nextSandboxMessage`, consuming a finite
prefix of the inner stream: loop until an item is surfaced (`returned`),
the prefix is exhausted while still waiting (`pending`), the inner pull
rejects an unknown sandbox, or an exception aborts the call. -/
def nextSandboxMessage (st : MState) (sid : Nat) :
    List InnerItem → MState × List SentRpc × LoopResult
  | [] => (st, [], .pending)
  | i :: rest =>
    match alookup st.sandboxesChains sid with
    | none => (st, [], .unknownSandbox)
    | some _ =>
      match processItem st sid i with
      | (st1, sent, .ret m) => (st1, sent, .returned m)
      | (st1, sent, .cont) =>
        let r := nextSandboxMessage st1 sid rest
        (r.1, sent ++ r.2.1, r.2.2)
      | (st1, sent, .thrown e) => (st1, sent, .failed e)

/-- Inner double loop of `#sendPings` over one sandbox's chains. -/
def sendPingsChains (sid : Nat) (ctr : Nat) :
    List (List Char × Chain) → Nat × List SentRpc
  | [] => (ctr, [])
  | (cid, _) :: t =>
    let r := sendPingsChains sid (ctr + 1) t
    (r.1, ⟨sid, cid, healthReq ctr⟩ :: r.2)

/-- Outer loop of `#sendPings` over all sandboxes. -/
def sendPingsAux (ctr : Nat) :
    List (Nat × List (List Char × Chain)) → Nat × List SentRpc
  | [] => (ctr, [])
  | (sid, m) :: t =>
    let r1 := sendPingsChains sid ctr m
    let r2 := sendPingsAux r1.1 t
    (r2.1, r1.2 ++ r2.2)

/-- One firing of the ping scheduler (`#sendPings`). -/
def sendPings (st : MState) : MState × List SentRpc :=
  let r := sendPingsAux st.nextHealthCheckRqId st.sandboxesChains
  ({ st with nextHealthCheckRqId := r.1 }, r.2)

/-! ### Facade: outbound injection and sandbox bookkeeping -/

/-- Messages injected by the client (`ToExtension`). -/
inductive ToExtension where
  | removeChain (chainId : List Char) : ToExtension
  | rpcOut (chainId : List Char) (jsonRpcMessage : List Char) : ToExtension
  | otherExt : ToExtension

/-- A message passed on to `inner.sandboxMessage` by the facade. -/
structure Delegated where
  sandboxId : Nat
  msg : ToExtension

/-- `"extern:" + JSON.stringify(id)`; an absent id stringifies to the
undefined value, which string concatenation renders as `"undefined"`. -/
def wrapExternalId (idOpt : Option Json) : List Char :=
  externTag ++ (match idOpt with
    | some v => Json.encode v
    | none => "undefined".toList)

/-- Outbound `sandboxMessage`: wrap `rpc` identifiers into the external
namespace, clean up on `remove-chain`, delegate everything.  The third
component models the exception (if any) that propagates out of the call
after the `finally` block has delegated. -/
def sandboxMessage (st : MState) (sid : Nat) (message : ToExtension) :
    MState × List Delegated × Option JsErr :=
  match message with
  | .removeChain cid =>
    match alookup st.sandboxesChains sid with
    | none => (st, [], some .typeError)
    | some m =>
      ({ st with sandboxesChains := aset st.sandboxesChains sid (adel m cid) },
       [⟨sid, .removeChain cid⟩], none)
  | .rpcOut cid payload =>
    match Json.parse payload with
    | none => (st, [⟨sid, .rpcOut cid payload⟩], some .parseError)
    | some (.obj fs) =>
      (st,
       [⟨sid, .rpcOut cid
          (Json.encode (.obj (aset fs idK (.str (wrapExternalId (alookup fs idK))))))⟩],
       none)
    | some (.arr xs) =>
      (st, [⟨sid, .rpcOut cid (Json.encode (.arr xs))⟩], none)
    | some _ => (st, [⟨sid, .rpcOut cid payload⟩], some .typeError)
  | .otherExt => (st, [⟨sid, .otherExt⟩], none)

/-- `addSandbox`: the inner manager throws on a duplicate id (before the
local map is touched). -/
def addSandbox (st : MState) (sid : Nat) : MState :=
  match alookup st.sandboxesChains sid with
  | some _ => st
  | none => { st with sandboxesChains := aset st.sandboxesChains sid [] }

/-- `deleteSandbox`: the inner manager throws on an unknown id (before
the local map is touched). -/
def deleteSandbox (st : MState) (sid : Nat) : MState :=
  match alookup st.sandboxesChains sid with
  | none => st
  | some _ => { st with sandboxesChains := adel st.sandboxesChains sid }

/-! ### Operation traces -/

/-- One observable operation on the instance. -/
inductive Op where
  | nextMsg (sid : Nat) (items : List InnerItem) : Op
  | pings : Op
  | clientMsg (sid : Nat) (m : ToExtension) : Op
  | addSandboxOp (sid : Nat) : Op
  | deleteSandboxOp (sid : Nat) : Op

/-- Effect of one operation: next state, internally generated requests,
messages delegated for the client. -/
def applyOp (st : MState) : Op → MState × List SentRpc × List Delegated
  | .nextMsg sid items =>
    let r := nextSandboxMessage st sid items
    (r.1, r.2.1, [])
  | .pings =>
    let r := sendPings st
    (r.1, r.2, [])
  | .clientMsg sid m =>
    let r := sandboxMessage st sid m
    (r.1, [], r.2.1)
  | .addSandboxOp sid => (addSandbox st sid, [], [])
  | .deleteSandboxOp sid => (deleteSandbox st sid, [], [])

/-- Run a sequence of operations, collecting all internally generated
requests and all delegated client messages. -/
def runOps (st : MState) : List Op → MState × List SentRpc × List Delegated
  | [] => (st, [], [])
  | op :: t =>
    let r1 := applyOp st op
    let r2 := runOps r1.1 t
    (r2.1, r1.2.1 ++ r2.2.1, r1.2.2 ++ r2.2.2)

/-- The id field of an internally generated request object. -/
def reqId (j : Json) : List Char :=
  match jsField j idK with
  | some (.str s) => s
  | _ => []




/-! ### Decimal rendering: basic facts -/

theorem natToCharsAux_eq_digits (fuel : Nat) :
    ∀ n acc, n ≠ 0 → n ≤ fuel →
      natToCharsAux fuel n acc = (Nat.digits 10 n).reverse.map digitChar ++ acc := by
  induction fuel with
  | zero => intro n acc h0 hle; omega
  | succ f ih =>
    intro n acc h0 hle
    rw [natToCharsAux]
    by_cases h10 : n < 10
    · rw [if_pos h10]
      rw [Nat.digits_def' (b := 10) (by norm_num) (Nat.pos_of_ne_zero h0)]
      have : n / 10 = 0 := Nat.div_eq_of_lt h10
      rw [this]
      simp [Nat.mod_eq_of_lt h10]
    · rw [if_neg h10]
      have hn10 : n / 10 ≠ 0 := by
        intro h; have := Nat.div_eq_of_lt (by omega : n < 10); omega
      have hle' : n / 10 ≤ f := by
        have := Nat.div_lt_self (Nat.pos_of_ne_zero h0) (by norm_num : 1 < 10)
        omega
      rw [ih (n / 10) _ hn10 hle']
      rw [Nat.digits_def' (b := 10) (by norm_num) (Nat.pos_of_ne_zero h0)]
      simp

theorem natToChars_eq_digits {n : Nat} (h0 : n ≠ 0) :
    natToChars n = (Nat.digits 10 n).reverse.map digitChar := by
  rw [natToChars, natToCharsAux_eq_digits (n + 1) n [] h0 (Nat.le_succ n),
    List.append_nil]

theorem charVal_digitChar {d : Nat} (h : d < 10) : charVal (digitChar d) = d := by
  interval_cases d <;> rfl

theorem isDigitB_digitChar {d : Nat} (h : d < 10) : isDigitB (digitChar d) = true := by
  interval_cases d <;> rfl

theorem charsToNat_natToChars (n : Nat) : charsToNat (natToChars n) = n := by
  by_cases h0 : n = 0
  · subst h0; rfl
  · have hmap : ∀ l : List Nat, (∀ d ∈ l, d < 10) →
        l.map (charVal ∘ digitChar) = l := by
      intro l
      induction l with
      | nil => intro _; rfl
      | cons a t ih =>
        intro h
        simp only [List.map_cons, Function.comp_apply]
        rw [charVal_digitChar (h a (List.mem_cons_self a t)),
          ih (fun d hd => h d (List.mem_cons_of_mem a hd))]
    rw [natToChars_eq_digits h0]
    show Nat.ofDigits 10 ((((Nat.digits 10 n).reverse.map digitChar).map charVal).reverse) = n
    rw [List.map_map, List.map_reverse, List.reverse_reverse,
      hmap _ (fun d hd => Nat.digits_lt_base (by norm_num) hd)]
    exact_mod_cast Nat.ofDigits_digits 10 n

theorem natToChars_inj {a b : Nat} (h : natToChars a = natToChars b) : a = b := by
  have ha := charsToNat_natToChars a
  have hb := charsToNat_natToChars b
  rw [h] at ha
  omega

theorem natToChars_ne_nil (n : Nat) : natToChars n ≠ [] := by
  by_cases h0 : n = 0
  · subst h0; intro h; exact List.noConfusion h
  · rw [natToChars_eq_digits h0]
    simp [Nat.digits_ne_nil_iff_ne_zero.mpr h0]

theorem natToChars_all_digits {n : Nat} : ∀ c ∈ natToChars n, isDigitB c = true := by
  by_cases h0 : n = 0
  · subst h0
    intro c hc
    rw [show natToChars 0 = [digitChar 0] from rfl] at hc
    rcases List.mem_singleton.mp hc with rfl
    exact isDigitB_digitChar (by norm_num)
  · rw [natToChars_eq_digits h0]
    intro c hc
    rcases List.mem_map.mp hc with ⟨d, hd, rfl⟩
    exact isDigitB_digitChar (Nat.digits_lt_base (by norm_num) (List.mem_reverse.mp hd))

theorem takeWhile_eq_self_of {p : α → Bool} :
    ∀ {l : List α}, (∀ a ∈ l, p a = true) → l.takeWhile p = l := by
  intro l
  induction l with
  | nil => intro _; rfl
  | cons a t ih =>
    intro h
    rw [List.takeWhile_cons, h a (List.mem_cons_self a t),
      ih (fun x hx => h x (List.mem_cons_of_mem a hx))]
    simp

theorem dropWhile_eq_nil_of {p : α → Bool} :
    ∀ {l : List α}, (∀ a ∈ l, p a = true) → l.dropWhile p = [] := by
  intro l
  induction l with
  | nil => intro _; rfl
  | cons a t ih =>
    intro h
    rw [List.dropWhile_cons, h a (List.mem_cons_self a t)]
    exact ih (fun x hx => h x (List.mem_cons_of_mem a hx))

theorem isWsB_eq_false_of_isDigitB {c : Char} (h : isDigitB c = true) :
    isWsB c = false := by
  have h48 : 48 ≤ c.toNat := by
    have := of_decide_eq_true (Bool.and_elim_left h)
    exact this
  rw [isWsB]
  have hsp : (c = ' ') = False := by
    simp only [eq_iff_iff, iff_false]
    intro hc; subst hc; exact absurd h (by decide)
  have hta : (c = '\t') = False := by
    simp only [eq_iff_iff, iff_false]
    intro hc; subst hc; exact absurd h (by decide)
  have hnl : (c = '\n') = False := by
    simp only [eq_iff_iff, iff_false]
    intro hc; subst hc; exact absurd h (by decide)
  have hcr : (c = '\r') = False := by
    simp only [eq_iff_iff, iff_false]
    intro hc; subst hc; exact absurd h (by decide)
  simp [hsp, hta, hnl, hcr]

theorem hexVal_hexChar {d : Nat} (h : d < 16) : hexVal (hexChar d) = some d := by
  interval_cases d <;> rfl

theorem parseStringBody_escChars :
    ∀ (s rest : List Char),
      parseStringBody (escChars s ++ '"' :: rest) = some (s, rest) := by
  intro s
  induction s with
  | nil => intro rest; simp [escChars, parseStringBody]
  | cons c t ih =>
    intro rest
    rw [escChars, List.append_assoc]
    by_cases hq : c = '"'
    · subst hq
      rw [show escChar '"' = ['\\', '"'] from rfl]
      simp [parseStringBody, parseEscape, escCode, prependChar, ih rest]
    · by_cases hb : c = '\\'
      · subst hb
        rw [show escChar '\\' = ['\\', '\\'] from rfl]
        simp [parseStringBody, parseEscape, escCode, prependChar, ih rest]
      · by_cases h8 : c.toNat = 8
        · rw [escChar, if_neg hq, if_neg hb, if_pos h8]
          have hc : Char.ofNat 8 = c := by rw [← h8, Char.ofNat_toNat]
          simp [parseStringBody, parseEscape, escCode, prependChar, ih rest]
          exact hc
        · by_cases h9 : c.toNat = 9
          · rw [escChar, if_neg hq, if_neg hb, if_neg h8, if_pos h9]
            have hc : Char.ofNat 9 = c := by rw [← h9, Char.ofNat_toNat]
            simp [parseStringBody, parseEscape, escCode, prependChar, ih rest]
            exact hc
          · by_cases h10 : c.toNat = 10
            · rw [escChar, if_neg hq, if_neg hb, if_neg h8, if_neg h9, if_pos h10]
              have hc : Char.ofNat 10 = c := by rw [← h10, Char.ofNat_toNat]
              simp [parseStringBody, parseEscape, escCode, prependChar, ih rest]
              exact hc
            · by_cases h12 : c.toNat = 12
              · rw [escChar, if_neg hq, if_neg hb, if_neg h8, if_neg h9, if_neg h10,
                  if_pos h12]
                have hc : Char.ofNat 12 = c := by rw [← h12, Char.ofNat_toNat]
                simp [parseStringBody, parseEscape, escCode, prependChar, ih rest]
                exact hc
              · by_cases h13 : c.toNat = 13
                · rw [escChar, if_neg hq, if_neg hb, if_neg h8, if_neg h9, if_neg h10,
                    if_neg h12, if_pos h13]
                  have hc : Char.ofNat 13 = c := by rw [← h13, Char.ofNat_toNat]
                  simp [parseStringBody, parseEscape, escCode, prependChar, ih rest]
                  exact hc
                · by_cases h32 : c.toNat < 32
                  · rw [escChar, if_neg hq, if_neg hb, if_neg h8, if_neg h9, if_neg h10,
                      if_neg h12, if_neg h13, if_pos h32]
                    have hdiv : c.toNat / 16 < 16 := by omega
                    have hmod : c.toNat % 16 < 16 := by omega
                    have harith : c.toNat / 16 * 16 + c.toNat % 16 = c.toNat := by
                      omega
                    simp [parseStringBody, parseEscape, parseUnicode,
                      hexVal_hexChar hdiv, hexVal_hexChar hmod,
                      show hexVal '0' = some 0 from rfl, harith, Char.ofNat_toNat,
                      prependChar, ih rest]
                  · rw [escChar, if_neg hq, if_neg hb, if_neg h8, if_neg h9, if_neg h10,
                      if_neg h12, if_neg h13, if_neg h32]
                    simp [parseStringBody, hq, hb, prependChar, ih rest]

theorem skipWs_cons_of_not_ws {c : Char} {l : List Char} (h : isWsB c = false) :
    skipWs (c :: l) = c :: l := by
  simp [skipWs, List.dropWhile_cons, h]

theorem parse_encode_str (s : List Char) :
    Json.parse (Json.encode (.str s)) = some (.str s) := by
  rw [show Json.encode (.str s) = '"' :: (escChars s ++ ['"']) from rfl]
  have hws : skipWs ('"' :: (escChars s ++ ['"'])) = '"' :: (escChars s ++ ['"']) :=
    skipWs_cons_of_not_ws (by decide)
  simp only [Json.parse, hws]
  obtain ⟨f, hf⟩ : ∃ f, 2 * ('"' :: (escChars s ++ ['"'])).length + 2 = f + 1 :=
    ⟨2 * ('"' :: (escChars s ++ ['"'])).length + 1, by omega⟩
  rw [hf]
  simp only [parseValue, if_pos rfl]
  rw [show escChars s ++ ['"'] = escChars s ++ '"' :: [] from rfl,
    parseStringBody_escChars s []]
  simp [skipWs]

theorem natToChars_cons :
    ∀ n : Nat, ∃ c l, natToChars n = c :: l := by
  intro n
  cases h : natToChars n with
  | nil => exact absurd h (natToChars_ne_nil n)
  | cons a b => exact ⟨a, b, rfl⟩

theorem parse_encode_num (i : Int) :
    Json.parse (Json.encode (.num i)) = some (.num i) := by
  obtain ⟨c, l, hcl⟩ := natToChars_cons i.natAbs
  have hdig : ∀ x ∈ c :: l, isDigitB x = true := by
    rw [← hcl]; exact natToChars_all_digits
  have hdigc : isDigitB c = true := hdig c (List.mem_cons_self c l)
  have hq : ¬c = '"' := by
    intro h; subst h; exact absurd hdigc (by decide)
  have hm : ¬c = '-' := by
    intro h; subst h; exact absurd hdigc (by decide)
  have hchars : charsToNat (c :: l) = i.natAbs := by
    rw [← hcl]; exact charsToNat_natToChars i.natAbs
  rw [show Json.encode (.num i) = intToChars i from rfl, intToChars]
  by_cases hneg : i < 0
  · rw [if_pos hneg, hcl]
    have hws : skipWs ('-' :: c :: l) = '-' :: c :: l :=
      skipWs_cons_of_not_ws (by decide)
    simp only [Json.parse, hws]
    obtain ⟨f, hf⟩ : ∃ f, 2 * ('-' :: c :: l).length + 2 = f + 1 :=
      ⟨2 * ('-' :: c :: l).length + 1, by omega⟩
    rw [hf]
    simp only [parseValue]
    rw [takeWhile_eq_self_of hdig, dropWhile_eq_nil_of hdig]
    have hval : -(charsToNat (c :: l) : Int) = i := by
      rw [hchars]; omega
    simp [skipWs, hval]
  · rw [if_neg hneg, hcl]
    have hws : skipWs (c :: l) = c :: l :=
      skipWs_cons_of_not_ws (isWsB_eq_false_of_isDigitB hdigc)
    simp only [Json.parse, hws]
    obtain ⟨f, hf⟩ : ∃ f, 2 * (c :: l).length + 2 = f + 1 :=
      ⟨2 * (c :: l).length + 1, by omega⟩
    rw [hf]
    simp only [parseValue]
    rw [if_neg hq, if_neg hm, if_pos hdigc, takeWhile_eq_self_of hdig,
      dropWhile_eq_nil_of hdig]
    have hval : (charsToNat (c :: l) : Int) = i := by
      rw [hchars]; omega
    simp [skipWs, hval]

theorem parse_encode_scalar {X : Json} (h : isIdScalar X = true) :
    Json.parse (Json.encode X) = some X := by
  cases X with
  | null => rfl
  | num i => exact parse_encode_num i
  | str s => exact parse_encode_str s
  | bool b => exact absurd h (by simp [isIdScalar])
  | arr xs => exact absurd h (by simp [isIdScalar])
  | obj fs => exact absurd h (by simp [isIdScalar])

/-! ### Map lemmas -/

theorem alookup_aset {α β : Type} [DecidableEq α]
    (l : List (α × β)) (k : α) (v : β) (k' : α) :
    alookup (aset l k v) k' = if k = k' then some v else alookup l k' := by
  induction l with
  | nil => simp [aset, alookup]
  | cons p t ih =>
    obtain ⟨k0, v0⟩ := p
    rw [aset]
    by_cases h0 : k0 = k
    · rw [if_pos h0]
      subst h0
      by_cases h1 : k0 = k'
      · rw [alookup, if_pos h1, if_pos h1]
      · rw [alookup, if_neg h1, if_neg h1, alookup, if_neg h1]
    · rw [if_neg h0]
      by_cases h1 : k0 = k'
      · subst h1
        have hkk : ¬k = k0 := fun hh => h0 hh.symm
        rw [alookup, if_pos rfl, if_neg hkk, alookup, if_pos rfl]
      · rw [alookup, if_neg h1, ih, alookup, if_neg h1]

theorem alookup_adel {α β : Type} [DecidableEq α] (l : List (α × β)) (k : α) :
    alookup (adel l k) k = none := by
  induction l with
  | nil => rfl
  | cons p t ih =>
    obtain ⟨k0, v0⟩ := p
    rw [adel]
    by_cases h0 : k0 = k
    · rw [if_pos h0]; exact ih
    · rw [if_neg h0, alookup, if_neg h0]; exact ih

theorem alookup_adel_ne {α β : Type} [DecidableEq α]
    (l : List (α × β)) (k k' : α) (h : ¬k = k') :
    alookup (adel l k) k' = alookup l k' := by
  induction l with
  | nil => rfl
  | cons p t ih =>
    obtain ⟨k0, v0⟩ := p
    rw [adel]
    by_cases h0 : k0 = k
    · subst h0
      rw [if_pos rfl, alookup, if_neg h, ih]
    · rw [if_neg h0, alookup, alookup, ih]

theorem aset_append_of_absent {α β : Type} [DecidableEq α]
    (l : List (α × β)) (k : α) (v : β) (h : alookup l k = none) :
    aset l k v = l ++ [(k, v)] := by
  induction l with
  | nil => rfl
  | cons p t ih =>
    obtain ⟨k0, v0⟩ := p
    rw [alookup] at h
    by_cases h0 : k0 = k
    · rw [if_pos h0] at h; exact Option.noConfusion h
    · rw [if_neg h0] at h
      rw [aset, if_neg h0, ih h, List.cons_append]

theorem alookup_append_of_absent {α β : Type} [DecidableEq α]
    (l : List (α × β)) (k : α) (v : β) (h : alookup l k = none) :
    alookup (l ++ [(k, v)]) k = some v := by
  induction l with
  | nil => simp [alookup]
  | cons p t ih =>
    obtain ⟨k0, v0⟩ := p
    rw [alookup] at h
    by_cases h0 : k0 = k
    · rw [if_pos h0] at h; exact Option.noConfusion h
    · rw [if_neg h0] at h
      rw [List.cons_append, alookup, if_neg h0, ih h]

/-! ### C7: malformed outbound JSON -/

/-- C7 (counterexample): on an unparseable `rpc` payload the claim as
stated — delegation of the unmodified message with `sandboxMessage`
itself not failing — is false: the message is delegated, but the
`JSON.parse` exception still propagates out of `sandboxMessage` after
the `finally` block. -/
theorem C7_counterexample :
    ¬ ((sandboxMessage initialState 0 (.rpcOut ['c'] ['!'])).2.1
          = [⟨0, .rpcOut ['c'] ['!']⟩]
        ∧ (sandboxMessage initialState 0 (.rpcOut ['c'] ['!'])).2.2
          = (none : Option JsErr)) := by
  intro h
  have h2 := h.2
  rw [show (sandboxMessage initialState 0 (.rpcOut ['c'] ['!'])).2.2
      = some JsErr.parseError from rfl] at h2
  exact Option.noConfusion h2

/-- C7 (amended): for every `rpc` message whose payload cannot be parsed
as JSON, the identifier-wrapping step is skipped and the unmodified
message is still delegated to the inner manager; the parse exception
then propagates out of `sandboxMessage` after the delegation. -/
theorem C7_malformed_outbound (st : MState) (sid : Nat)
    (cid payload : List Char) (h : Json.parse payload = none) :
    sandboxMessage st sid (.rpcOut cid payload)
      = (st, [⟨sid, .rpcOut cid payload⟩], some .parseError) := by
  simp [sandboxMessage, h]

/-- C7 witness. -/
theorem C7_witness :
    sandboxMessage initialState 3 (.rpcOut ['c'] ['!'])
      = (initialState, [⟨3, .rpcOut ['c'] ['!']⟩], some .parseError) :=
  C7_malformed_outbound initialState 3 ['c'] ['!'] rfl

/-! ### C10: outbound wrapping of id-less notifications -/

/-- C10: an `rpc` payload that parses to an object with no `id` field is
still wrapped: the forwarded payload carries the appended string id
`"extern:undefined"`, so a client notification is delegated as an
id-bearing message. -/
theorem C10_notification_gains_id (st : MState) (sid : Nat)
    (cid payload : List Char) (fs : List (List Char × Json))
    (hp : Json.parse payload = some (.obj fs))
    (hid : alookup fs idK = none) :
    sandboxMessage st sid (.rpcOut cid payload)
      = (st,
         [⟨sid, .rpcOut cid
            (Json.encode (.obj (fs ++ [(idK, .str ("extern:undefined".toList))])))⟩],
         none)
    ∧ alookup (fs ++ [(idK, .str ("extern:undefined".toList))]) idK
        = some (.str ("extern:undefined".toList)) := by
  constructor
  · simp only [sandboxMessage, hp, hid]
    rw [show wrapExternalId none = "extern:undefined".toList from rfl,
      aset_append_of_absent fs idK _ hid]
  · exact alookup_append_of_absent fs idK _ hid

/-- C10 witness. -/
theorem C10_witness :
    sandboxMessage initialState 0
        (ToExtension.rpcOut ['c'] (Json.encode (.obj [(methodK, .str ['m'])])))
      = (initialState,
         [Delegated.mk 0 (ToExtension.rpcOut ['c']
            (Json.encode (.obj [(methodK, .str ['m']),
              (idK, .str ("extern:undefined".toList))])))],
         none)
    ∧ alookup [(methodK, Json.str ['m']),
          (idK, Json.str ("extern:undefined".toList))] idK
        = some (Json.str ("extern:undefined".toList)) :=
  C10_notification_gains_id initialState 0 ['c']
    (Json.encode (.obj [(methodK, .str ['m'])])) [(methodK, Json.str ['m'])] rfl rfl


/-! ### C1: round-trip of external identifiers -/

/-- C1: for every client `rpc` payload whose id is a string, a number or
null, wrapping on injection (`"extern:" + JSON.stringify(id)`) followed
by unwrapping on the matching response (strip the prefix, JSON-decode
the remainder) restores the id exactly — including ids that themselves
start with `extern:`, `ready-sub:` or `health-check:`. -/
theorem C1_extern_id_roundtrip (X : Json) (hX : isIdScalar X = true) :
    (∀ (st : MState) (sid : Nat) (cid payload : List Char)
       (fs : List (List Char × Json)),
       Json.parse payload = some (.obj fs) →
       alookup fs idK = some X →
       sandboxMessage st sid (.rpcOut cid payload)
         = (st,
            [⟨sid, .rpcOut cid
               (Json.encode (.obj (aset fs idK
                 (.str (externTag ++ Json.encode X)))))⟩],
            none))
    ∧ (∀ (st : MState) (sid : Nat) (m : List (List Char × Chain))
         (cid payload : List Char) (fs : List (List Char × Json)),
       alookup st.sandboxesChains sid = some m →
       Json.parse payload = some (.obj fs) →
       alookup fs idK = some (.str (externTag ++ Json.encode X)) →
       processItem st sid (.rpc cid payload)
         = (st, [], .ret (.item (.rpc cid (Json.encode (.obj (aset fs idK X))))))
       ∧ alookup (aset fs idK X) idK = some X) := by
  constructor
  · intro st sid cid payload fs hp hid
    simp [sandboxMessage, hp, hid, wrapExternalId]
  · intro st sid m cid payload fs hm hp hid
    have htr : jsTruthy (some (.str (externTag ++ Json.encode X))) = true := by
      simp [jsTruthy, externTag]
    have hpre : listStartsWith (externTag ++ Json.encode X) externTag = true := by
      simp [listStartsWith]
    have hdrop : (externTag ++ Json.encode X).drop externTag.length
        = Json.encode X := by
      simp
    have hparse := parse_encode_scalar hX
    constructor
    · simp only [processItem, hm, hp, processRpcObj, hid, htr, hpre, if_pos,
        if_true, hdrop, hparse]
    · rw [alookup_aset, if_pos rfl]

/-- C1 witness: a string id that itself starts with `extern:`. -/
theorem C1_witness :
    (sandboxMessage initialState 0
        (.rpcOut ['c'] (Json.encode (.obj [(idK, .str ("extern:x".toList))])))
       = (initialState,
          [⟨0, ToExtension.rpcOut ['c']
             (Json.encode (.obj (aset [(idK, Json.str ("extern:x".toList))] idK
               (.str (externTag ++ Json.encode (.str ("extern:x".toList)))))))⟩],
          none))
    ∧ (processItem (addSandbox initialState 0) 0
         (.rpc ['c'] (Json.encode (.obj [(idK,
            .str (externTag ++ Json.encode (.str ("extern:x".toList))))])))
         = ((addSandbox initialState 0), [],
            .ret (.item (.rpc ['c'] (Json.encode (.obj (aset
              [(idK, Json.str (externTag ++ Json.encode (.str ("extern:x".toList))))]
              idK (.str ("extern:x".toList))))))))
       ∧ alookup (aset
           [(idK, Json.str (externTag ++ Json.encode (.str ("extern:x".toList))))]
           idK (.str ("extern:x".toList))) idK
           = some (.str ("extern:x".toList))) :=
  ⟨(C1_extern_id_roundtrip (.str ("extern:x".toList)) rfl).1 initialState 0 ['c']
      (Json.encode (.obj [(idK, .str ("extern:x".toList))]))
      [(idK, Json.str ("extern:x".toList))] rfl rfl,
   (C1_extern_id_roundtrip (.str ("extern:x".toList)) rfl).2
      (addSandbox initialState 0) 0 [] ['c']
      (Json.encode (.obj [(idK,
        .str (externTag ++ Json.encode (.str ("extern:x".toList))))]))
      [(idK, Json.str (externTag ++ Json.encode (.str ("extern:x".toList))))]
      rfl rfl rfl⟩


/-! ### C2: follow events other than initialized/stop -/

/-- C2 (counterexample): a `chainHead_unstable_followEvent` notification
on the chain's current subscription whose event is `"finalized"` is NOT
surfaced to the caller: the inner `switch` has no matching case, the
outer `break` continues the loop, and the item is consumed silently
(the call is left waiting for the next inner item). -/
theorem C2_counterexample :
    (nextSandboxMessage
        ⟨[(0, [(['c'], ⟨some (.str ['s']), false, some (.num 0)⟩)])], 5⟩ 0
        [.rpc ['c'] (Json.encode (.obj [(methodK, .str followEventM),
           (paramsK, .obj [(subscriptionK, .str ['s']),
             (resultK, .obj [(eventK, .str ("finalized".toList))])])]))]).2.2
      ≠ LoopResult.returned (.item (.rpc ['c']
          (Json.encode (.obj [(methodK, .str followEventM),
            (paramsK, .obj [(subscriptionK, .str ['s']),
              (resultK, .obj [(eventK, .str ("finalized".toList))])])])))) :=
  fun h => LoopResult.noConfusion h

/-- C2 (amended): a follow-event notification on the chain's current
subscription whose event is neither `initialized` nor `stop` is consumed
silently — no state change, no downstream request, no caller-visible
message, the consumption loop just continues — whereas a follow-event
notification whose subscription does not match the current one is
surfaced to the caller unmodified. -/
theorem C2_other_follow_events (st : MState) (sid : Nat)
    (m : List (List Char × Chain)) (ch : Chain) (cid payload : List Char)
    (fs pfs rfs : List (List Char × Json)) (u : List Char) (ev : Option Json)
    (hm : alookup st.sandboxesChains sid = some m)
    (hch : alookup m cid = some ch)
    (hsub : ch.readySubscriptionId = some (.str u))
    (hp : Json.parse payload = some (.obj fs))
    (hid : alookup fs idK = none)
    (hmeth : alookup fs methodK = some (.str followEventM))
    (hpar : alookup fs paramsK = some (.obj pfs))
    (hpsub : alookup pfs subscriptionK = some (.str u))
    (hres : alookup pfs resultK = some (.obj rfs))
    (hev : alookup rfs eventK = ev)
    (hev1 : jsIsStr ev initializedLit = false)
    (hev2 : jsIsStr ev stopLit = false) :
    processItem st sid (.rpc cid payload) = (st, [], .cont)
    ∧ (∀ rest, nextSandboxMessage st sid (.rpc cid payload :: rest)
         = nextSandboxMessage st sid rest)
    ∧ (∀ (payload' : List Char) (fs' pfs' : List (List Char × Json)) (w : List Char),
         ¬w = u →
         Json.parse payload' = some (.obj fs') →
         alookup fs' idK = none →
         alookup fs' methodK = some (.str followEventM) →
         alookup fs' paramsK = some (.obj pfs') →
         alookup pfs' subscriptionK = some (.str w) →
         processItem st sid (.rpc cid payload')
           = (st, [], .ret (.item (.rpc cid payload')))) := by
  have hm2 : jsIsStr (some (.str followEventM)) followEventM = true := by
    simp [jsIsStr]
  have htrn : jsTruthy none = false := rfl
  have hseq : jsStrictEq (some (Json.str u)) (some (Json.str u)) = true := by
    simp [jsStrictEq, jsPrimEq]
  have h1 : processItem st sid (.rpc cid payload) = (st, [], .cont) := by
    simp only [processItem, hm, hp, processRpcObj, hid, htrn, hch, hmeth, hm2,
      hpar, hres, jsField, hev, hev1, hev2, hpsub, hsub, hseq]
    simp
  refine ⟨h1, ?_, ?_⟩
  · intro rest
    simp only [nextSandboxMessage, hm, h1]
    simp
  · intro payload' fs' pfs' w hw hp' hid' hmeth' hpar' hpsub'
    have hseq' : jsStrictEq (some (Json.str w)) (some (Json.str u)) = false := by
      simp [jsStrictEq, jsPrimEq, hw]
    simp only [processItem, hm, hp', processRpcObj, hid', htrn, hch, hmeth', hm2,
      hpar', jsField, hpsub', hsub, hseq']
    simp


/-- C2 witness. -/
theorem C2_witness :
    (processItem ⟨[(0, [(['c'], ⟨some (.str ['s']), false, some (.num 0)⟩)])], 5⟩ 0
        (.rpc ['c'] (Json.encode (.obj [(methodK, .str followEventM),
           (paramsK, .obj [(subscriptionK, .str ['s']),
             (resultK, .obj [(eventK, .str ("finalized".toList))])])])))
       = (⟨[(0, [(['c'], ⟨some (.str ['s']), false, some (.num 0)⟩)])], 5⟩, [],
          .cont))
    ∧ (nextSandboxMessage
         ⟨[(0, [(['c'], ⟨some (.str ['s']), false, some (.num 0)⟩)])], 5⟩ 0
         [.rpc ['c'] (Json.encode (.obj [(methodK, .str followEventM),
            (paramsK, .obj [(subscriptionK, .str ['s']),
              (resultK, .obj [(eventK, .str ("finalized".toList))])])]))]
       = nextSandboxMessage
           ⟨[(0, [(['c'], ⟨some (.str ['s']), false, some (.num 0)⟩)])], 5⟩ 0 [])
    ∧ (processItem ⟨[(0, [(['c'], ⟨some (.str ['s']), false, some (.num 0)⟩)])], 5⟩ 0
        (.rpc ['c'] (Json.encode (.obj [(methodK, .str followEventM),
           (paramsK, .obj [(subscriptionK, .str ['t']),
             (resultK, .obj [(eventK, .str stopLit)])])])))
       = (⟨[(0, [(['c'], ⟨some (.str ['s']), false, some (.num 0)⟩)])], 5⟩, [],
          .ret (.item (.rpc ['c'] (Json.encode (.obj [(methodK, .str followEventM),
            (paramsK, .obj [(subscriptionK, .str ['t']),
              (resultK, .obj [(eventK, .str stopLit)])])])))))) := by
  have h := C2_other_follow_events
    ⟨[(0, [(['c'], ⟨some (.str ['s']), false, some (.num 0)⟩)])], 5⟩ 0
    [(['c'], ⟨some (.str ['s']), false, some (.num 0)⟩)]
    ⟨some (.str ['s']), false, some (.num 0)⟩ ['c']
    (Json.encode (.obj [(methodK, .str followEventM),
      (paramsK, .obj [(subscriptionK, .str ['s']),
        (resultK, .obj [(eventK, .str ("finalized".toList))])])]))
    [(methodK, Json.str followEventM),
     (paramsK, Json.obj [(subscriptionK, Json.str ['s']),
       (resultK, Json.obj [(eventK, Json.str ("finalized".toList))])])]
    [(subscriptionK, Json.str ['s']),
     (resultK, Json.obj [(eventK, Json.str ("finalized".toList))])]
    [(eventK, Json.str ("finalized".toList))] ['s']
    (some (.str ("finalized".toList)))
    rfl rfl rfl rfl rfl rfl rfl rfl rfl rfl rfl rfl
  exact ⟨h.1, h.2.1 [],
    h.2.2 (Json.encode (.obj [(methodK, .str followEventM),
        (paramsK, .obj [(subscriptionK, .str ['t']),
          (resultK, .obj [(eventK, .str stopLit)])])]))
      [(methodK, Json.str followEventM),
       (paramsK, Json.obj [(subscriptionK, Json.str ['t']),
         (resultK, Json.obj [(eventK, Json.str stopLit)])])]
      [(subscriptionK, Json.str ['t']),
       (resultK, Json.obj [(eventK, Json.str stopLit)])] ['t']
      (by decide) rfl rfl rfl rfl rfl⟩


/-! ### C4: health state transitions -/

/-- C4: consuming a `chain-ready` item creates the chain's health record
as `{isSyncing: true, peers: 0, readySubscriptionId: absent}`, returns
the item unmodified and emits exactly one `chainHead_unstable_follow`
request with params `[true]` and a fresh ready-sub id; consuming a
follow-event `initialized` notification on the chain's active
subscription sets `isSyncing` to false, returns one
`chains-status-changed` message and emits exactly one `system_health`
request with a fresh health-check id. -/
theorem C4_health_transitions :
    (∀ (st : MState) (sid : Nat) (m : List (List Char × Chain))
       (cid : List Char) (rest : List InnerItem),
       alookup st.sandboxesChains sid = some m →
       nextSandboxMessage st sid (.chainReady cid :: rest)
         = ({ sandboxesChains := aset st.sandboxesChains sid
                (aset m cid ⟨none, true, some (.num 0)⟩),
              nextHealthCheckRqId := st.nextHealthCheckRqId + 1 },
            [⟨sid, cid, followReq st.nextHealthCheckRqId⟩],
            .returned (.item (.chainReady cid))))
    ∧ (∀ (st : MState) (sid : Nat) (m : List (List Char × Chain)) (ch : Chain)
         (cid payload : List Char) (fs pfs rfs : List (List Char × Json))
         (u : List Char),
       alookup st.sandboxesChains sid = some m →
       alookup m cid = some ch →
       ch.readySubscriptionId = some (.str u) →
       Json.parse payload = some (.obj fs) →
       alookup fs idK = none →
       alookup fs methodK = some (.str followEventM) →
       alookup fs paramsK = some (.obj pfs) →
       alookup pfs subscriptionK = some (.str u) →
       alookup pfs resultK = some (.obj rfs) →
       alookup rfs eventK = some (.str initializedLit) →
       nextSandboxMessage st sid [.rpc cid payload]
         = ({ sandboxesChains := aset st.sandboxesChains sid
                (aset m cid { ch with isSyncing := false }),
              nextHealthCheckRqId := st.nextHealthCheckRqId + 1 },
            [⟨sid, cid, healthReq st.nextHealthCheckRqId⟩],
            .returned .chainsStatusChanged)) := by
  constructor
  · intro st sid m cid rest hm
    simp only [nextSandboxMessage, hm, processItem]
  · intro st sid m ch cid payload fs pfs rfs u hm hch hsub hp hid hmeth hpar
      hpsub hres hev
    have hm2 : jsIsStr (some (.str followEventM)) followEventM = true := by
      simp [jsIsStr]
    have htrn : jsTruthy none = false := rfl
    have hseq : jsStrictEq (some (Json.str u)) (some (Json.str u)) = true := by
      simp [jsStrictEq, jsPrimEq]
    have hini : jsIsStr (some (Json.str initializedLit)) initializedLit = true := by
      simp [jsIsStr]
    have h1 : processItem st sid (.rpc cid payload)
        = ({ sandboxesChains := aset st.sandboxesChains sid
               (aset m cid { ch with isSyncing := false }),
             nextHealthCheckRqId := st.nextHealthCheckRqId + 1 },
           [⟨sid, cid, healthReq st.nextHealthCheckRqId⟩],
           .ret .chainsStatusChanged) := by
      simp only [processItem, hm, hp, processRpcObj, hid, htrn, hch, hmeth, hm2,
        hpar, hres, jsField, hev, hpsub, hsub, hseq, hini]
      simp [updateChain, hm, hch, hsub]
    simp only [nextSandboxMessage, hm, h1]


/-- C4 witness. -/
theorem C4_witness :
    (nextSandboxMessage (addSandbox initialState 0) 0 [.chainReady ['c']]
       = ({ sandboxesChains := aset (addSandbox initialState 0).sandboxesChains 0
              (aset [] ['c'] ⟨none, true, some (.num 0)⟩),
            nextHealthCheckRqId :=
              (addSandbox initialState 0).nextHealthCheckRqId + 1 },
          [⟨0, ['c'], followReq (addSandbox initialState 0).nextHealthCheckRqId⟩],
          .returned (.item (.chainReady ['c']))))
    ∧ (nextSandboxMessage
         ⟨[(0, [(['c'], ⟨some (.str ['s']), true, some (.num 0)⟩)])], 5⟩ 0
         [.rpc ['c'] (Json.encode (.obj [(methodK, .str followEventM),
            (paramsK, .obj [(subscriptionK, .str ['s']),
              (resultK, .obj [(eventK, .str initializedLit)])])]))]
       = ({ sandboxesChains :=
              aset [(0, [(['c'], ⟨some (.str ['s']), true, some (.num 0)⟩)])] 0
                (aset [(['c'], ⟨some (.str ['s']), true, some (.num 0)⟩)] ['c']
                  { (⟨some (.str ['s']), true, some (.num 0)⟩ : Chain) with
                      isSyncing := false }),
            nextHealthCheckRqId := 6 },
          [⟨0, ['c'], healthReq 5⟩],
          .returned .chainsStatusChanged)) :=
  ⟨C4_health_transitions.1 (addSandbox initialState 0) 0 [] ['c'] [] rfl,
   C4_health_transitions.2
     ⟨[(0, [(['c'], ⟨some (.str ['s']), true, some (.num 0)⟩)])], 5⟩ 0
     [(['c'], ⟨some (.str ['s']), true, some (.num 0)⟩)]
     ⟨some (.str ['s']), true, some (.num 0)⟩ ['c']
     (Json.encode (.obj [(methodK, .str followEventM),
       (paramsK, .obj [(subscriptionK, .str ['s']),
         (resultK, .obj [(eventK, .str initializedLit)])])]))
     [(methodK, Json.str followEventM),
      (paramsK, Json.obj [(subscriptionK, Json.str ['s']),
        (resultK, Json.obj [(eventK, Json.str initializedLit)])])]
     [(subscriptionK, Json.str ['s']),
      (resultK, Json.obj [(eventK, Json.str initializedLit)])]
     [(eventK, Json.str initializedLit)] ['s']
     rfl rfl rfl rfl rfl rfl rfl rfl rfl rfl⟩


/-! ### C5: self-healing subscription on `stop` -/

/-- C5 (amended): consuming a follow-event `stop` notification on the
chain's active subscription clears `readySubscriptionId`, emits exactly
one new `chainHead_unstable_follow([true])` request whose id is formed
from the current counter value — which the stop handler does not
advance, so the id is NOT guaranteed fresh — and produces no
caller-visible message for that input: the consumption loop continues
with the next inner item. -/
theorem C5_stop_restarts_subscription (st st' : MState) (sid : Nat)
    (m : List (List Char × Chain)) (ch : Chain) (cid payload : List Char)
    (fs pfs rfs : List (List Char × Json)) (u : List Char)
    (hm : alookup st.sandboxesChains sid = some m)
    (hch : alookup m cid = some ch)
    (hsub : ch.readySubscriptionId = some (.str u))
    (hp : Json.parse payload = some (.obj fs))
    (hid : alookup fs idK = none)
    (hmeth : alookup fs methodK = some (.str followEventM))
    (hpar : alookup fs paramsK = some (.obj pfs))
    (hpsub : alookup pfs subscriptionK = some (.str u))
    (hres : alookup pfs resultK = some (.obj rfs))
    (hev : alookup rfs eventK = some (.str stopLit))
    (hst' : st' = { sandboxesChains := aset st.sandboxesChains sid
                      (aset m cid { ch with readySubscriptionId := none }),
                    nextHealthCheckRqId := st.nextHealthCheckRqId }) :
    processItem st sid (.rpc cid payload)
      = (st', [⟨sid, cid, followReq st.nextHealthCheckRqId⟩], .cont)
    ∧ ∀ rest, nextSandboxMessage st sid (.rpc cid payload :: rest)
        = ((nextSandboxMessage st' sid rest).1,
           ⟨sid, cid, followReq st.nextHealthCheckRqId⟩
             :: (nextSandboxMessage st' sid rest).2.1,
           (nextSandboxMessage st' sid rest).2.2) := by
  have hm2 : jsIsStr (some (.str followEventM)) followEventM = true := by
    simp [jsIsStr]
  have htrn : jsTruthy none = false := rfl
  have hseq : jsStrictEq (some (Json.str u)) (some (Json.str u)) = true := by
    simp [jsStrictEq, jsPrimEq]
  have hstp : jsIsStr (some (Json.str stopLit)) stopLit = true := by
    simp [jsIsStr]
  have hnini : jsIsStr (some (Json.str stopLit)) initializedLit = false := by
    simp [jsIsStr, initializedLit, stopLit]
  have h1 : processItem st sid (.rpc cid payload)
      = (st', [⟨sid, cid, followReq st.nextHealthCheckRqId⟩], .cont) := by
    simp only [processItem, hm, hp, processRpcObj, hid, htrn, hch, hmeth, hm2,
      hpar, hres, jsField, hev, hpsub, hsub, hseq, hstp, hnini]
    simp [updateChain, hm, hch, hst']
  refine ⟨h1, ?_⟩
  intro rest
  simp only [nextSandboxMessage, hm, h1]
  simp


/-- C5 witness. -/
theorem C5_witness :
    processItem ⟨[(0, [(['c'], ⟨some (.str ['s']), false, some (.num 0)⟩)])], 5⟩ 0
        (.rpc ['c'] (Json.encode (.obj [(methodK, .str followEventM),
           (paramsK, .obj [(subscriptionK, .str ['s']),
             (resultK, .obj [(eventK, .str stopLit)])])])))
      = (⟨aset [(0, [(['c'], ⟨some (.str ['s']), false, some (.num 0)⟩)])] 0
            (aset [(['c'], ⟨some (.str ['s']), false, some (.num 0)⟩)] ['c']
              { (⟨some (.str ['s']), false, some (.num 0)⟩ : Chain) with
                  readySubscriptionId := none }), 5⟩,
         [⟨0, ['c'], followReq 5⟩], .cont)
    ∧ nextSandboxMessage
          ⟨[(0, [(['c'], ⟨some (.str ['s']), false, some (.num 0)⟩)])], 5⟩ 0
          [.rpc ['c'] (Json.encode (.obj [(methodK, .str followEventM),
             (paramsK, .obj [(subscriptionK, .str ['s']),
               (resultK, .obj [(eventK, .str stopLit)])])]))]
        = ((nextSandboxMessage
              ⟨aset [(0, [(['c'], ⟨some (.str ['s']), false, some (.num 0)⟩)])] 0
                 (aset [(['c'], ⟨some (.str ['s']), false, some (.num 0)⟩)] ['c']
                   { (⟨some (.str ['s']), false, some (.num 0)⟩ : Chain) with
                       readySubscriptionId := none }), 5⟩ 0 []).1,
           ⟨0, ['c'], followReq 5⟩
             :: (nextSandboxMessage
              ⟨aset [(0, [(['c'], ⟨some (.str ['s']), false, some (.num 0)⟩)])] 0
                 (aset [(['c'], ⟨some (.str ['s']), false, some (.num 0)⟩)] ['c']
                   { (⟨some (.str ['s']), false, some (.num 0)⟩ : Chain) with
                       readySubscriptionId := none }), 5⟩ 0 []).2.1,
           (nextSandboxMessage
              ⟨aset [(0, [(['c'], ⟨some (.str ['s']), false, some (.num 0)⟩)])] 0
                 (aset [(['c'], ⟨some (.str ['s']), false, some (.num 0)⟩)] ['c']
                   { (⟨some (.str ['s']), false, some (.num 0)⟩ : Chain) with
                       readySubscriptionId := none }), 5⟩ 0 []).2.2) := by
  have h := C5_stop_restarts_subscription
    ⟨[(0, [(['c'], ⟨some (.str ['s']), false, some (.num 0)⟩)])], 5⟩
    ⟨aset [(0, [(['c'], ⟨some (.str ['s']), false, some (.num 0)⟩)])] 0
       (aset [(['c'], ⟨some (.str ['s']), false, some (.num 0)⟩)] ['c']
         { (⟨some (.str ['s']), false, some (.num 0)⟩ : Chain) with
             readySubscriptionId := none }), 5⟩ 0
    [(['c'], ⟨some (.str ['s']), false, some (.num 0)⟩)]
    ⟨some (.str ['s']), false, some (.num 0)⟩ ['c']
    (Json.encode (.obj [(methodK, .str followEventM),
      (paramsK, .obj [(subscriptionK, .str ['s']),
        (resultK, .obj [(eventK, .str stopLit)])])]))
    [(methodK, Json.str followEventM),
     (paramsK, Json.obj [(subscriptionK, Json.str ['s']),
       (resultK, Json.obj [(eventK, Json.str stopLit)])])]
    [(subscriptionK, Json.str ['s']),
     (resultK, Json.obj [(eventK, Json.str stopLit)])]
    [(eventK, Json.str stopLit)] ['s']
    rfl rfl rfl rfl rfl rfl rfl rfl rfl rfl rfl
  exact ⟨h.1, h.2 []⟩


/-- C5 counterexample to the claim as stated: the ready-sub id of the
follow request emitted by a `stop` is not fresh, because the `stop`
handler does not advance the shared counter.  From a state with counter
5 and an active subscription "A", a `stop`, the resubscription response
(storing "B"), and a second `stop` emit two `chainHead_unstable_follow`
requests both carrying the same id `ready-sub:5`. -/
theorem C5_counterexample :
    ((nextSandboxMessage
        ⟨[(0, [(['c'], ⟨some (.str ['A']), false, some (.num 0)⟩)])], 5⟩ 0
        [.rpc ['c'] (Json.encode (.obj [(methodK, .str followEventM),
           (paramsK, .obj [(subscriptionK, .str ['A']),
             (resultK, .obj [(eventK, .str stopLit)])])])),
         .rpc ['c'] (Json.encode (.obj [(idK, .str (readySubId 5)),
           (resultK, .str ['B'])])),
         .rpc ['c'] (Json.encode (.obj [(methodK, .str followEventM),
           (paramsK, .obj [(subscriptionK, .str ['B']),
             (resultK, .obj [(eventK, .str stopLit)])])]))]).2.1.map
       (fun s => reqId s.req))
      = [readySubId 5, readySubId 5] := by rfl


/-! ### C3: internal identifier uniqueness -/

/-- C3: the claimed invariant fails in the code.  The claim says that
over any operation sequence all internally generated ready-sub and
health-check ids are pairwise distinct because every emission site
advances the shared counter; but the `stop` handler emits its
`chainHead_unstable_follow` request with the current counter value
without advancing the counter, so the next internal emission reuses the
same id.  Concretely, from the initial state the trace add-sandbox,
chain-ready, ready-sub response, stop, ready-sub response, stop
generates the ids `ready-sub:0`, `ready-sub:1`, `ready-sub:1`, which are
not pairwise distinct. -/
theorem C3_stop_id_collision :
    ¬ (((runOps initialState
        [.addSandboxOp 0,
         .nextMsg 0 [.chainReady ['c']],
         .nextMsg 0 [.rpc ['c'] (Json.encode (.obj [(idK, .str (readySubId 0)),
           (resultK, .str ['A'])]))],
         .nextMsg 0 [.rpc ['c'] (Json.encode (.obj [(methodK, .str followEventM),
           (paramsK, .obj [(subscriptionK, .str ['A']),
             (resultK, .obj [(eventK, .str stopLit)])])]))],
         .nextMsg 0 [.rpc ['c'] (Json.encode (.obj [(idK, .str (readySubId 1)),
           (resultK, .str ['B'])]))],
         .nextMsg 0 [.rpc ['c'] (Json.encode (.obj [(methodK, .str followEventM),
           (paramsK, .obj [(subscriptionK, .str ['B']),
             (resultK, .obj [(eventK, .str stopLit)])])]))]]).2.1.map
       (fun s => reqId s.req)).Pairwise (fun a b => a ≠ b)) := by
  decide


/-! ### C6: peer update and its frame -/

/-- C6: consuming an `rpc` response whose id is in the health-check
namespace and whose `result.peers` is `n` sets the chain's tracked peer
count to `n` and returns exactly one `chains-status-changed` message,
with no other visible effect: no downstream request, `isSyncing` and
`readySubscriptionId` unchanged, no other chain or sandbox touched. -/
theorem C6_peer_update_frame (st : MState) (sid : Nat)
    (m : List (List Char × Chain)) (ch : Chain) (cid payload s : List Char)
    (fs rfs : List (List Char × Json)) (pn : Int)
    (hm : alookup st.sandboxesChains sid = some m)
    (hch : alookup m cid = some ch)
    (hp : Json.parse payload = some (.obj fs))
    (hid : alookup fs idK = some (.str s))
    (hhc : listStartsWith s healthCheckTag = true)
    (hres : alookup fs resultK = some (.obj rfs))
    (hpeers : alookup rfs peersK = some (.num pn)) :
    processItem st sid (.rpc cid payload)
      = ({ sandboxesChains :=
             aset st.sandboxesChains sid
               (aset m cid { ch with peers := some (.num pn) }),
           nextHealthCheckRqId := st.nextHealthCheckRqId },
         [], .ret .chainsStatusChanged)
    ∧ (∀ sid', ¬sid' = sid →
         alookup (aset st.sandboxesChains sid
             (aset m cid { ch with peers := some (.num pn) })) sid'
           = alookup st.sandboxesChains sid')
    ∧ (∀ cid', ¬cid' = cid →
         alookup (aset m cid { ch with peers := some (.num pn) }) cid'
           = alookup m cid')
    ∧ ({ ch with peers := some (Json.num pn) }).isSyncing = ch.isSyncing
    ∧ ({ ch with peers := some (Json.num pn) }).readySubscriptionId
        = ch.readySubscriptionId := by
  obtain ⟨t, rfl⟩ : ∃ t, s = healthCheckTag ++ t := by
    obtain ⟨t, ht⟩ := List.isPrefixOf_iff_prefix.mp hhc
    exact ⟨t, ht.symm⟩
  have hne : jsTruthy (some (Json.str (healthCheckTag ++ t))) = true := by
    simp [jsTruthy, healthCheckTag]
  have hnex : listStartsWith (healthCheckTag ++ t) externTag = false := rfl
  have hhc2 : listStartsWith (healthCheckTag ++ t) healthCheckTag = true := by
    simp [listStartsWith]
  refine ⟨?_, ?_, ?_, rfl, rfl⟩
  · simp only [processItem, hm, hp, processRpcObj, hid, hne, hnex, hhc2, hch,
      hres, jsField, hpeers]
    simp [updateChain, hm, hch]
  · intro sid' h
    rw [alookup_aset, if_neg (fun hh => h hh.symm)]
  · intro cid' h
    rw [alookup_aset, if_neg (fun hh => h hh.symm)]

/-- C6 witness. -/
theorem C6_witness :
    processItem ⟨[(0, [(['c'], ⟨some (.str ['s']), false, some (.num 0)⟩)])], 5⟩ 0
        (.rpc ['c'] (Json.encode (.obj
          [(idK, .str (healthCheckTag ++ ['2'])),
           (resultK, .obj [(peersK, .num 7)])])))
      = ({ sandboxesChains := aset
             [(0, [(['c'], ⟨some (.str ['s']), false, some (.num 0)⟩)])] 0
             (aset [(['c'], ⟨some (.str ['s']), false, some (.num 0)⟩)] ['c']
               { (⟨some (.str ['s']), false, some (.num 0)⟩ : Chain) with
                   peers := some (.num 7) }),
           nextHealthCheckRqId := 5 },
         [], .ret .chainsStatusChanged)
    ∧ alookup (aset [(['c'], ⟨some (.str ['s']), false, some (.num 0)⟩)] ['c']
          { (⟨some (.str ['s']), false, some (.num 0)⟩ : Chain) with
              peers := some (.num 7) }) ['d']
        = alookup [(['c'], ⟨some (.str ['s']), false, some (.num 0)⟩)] ['d'] := by
  have h := C6_peer_update_frame
    ⟨[(0, [(['c'], ⟨some (.str ['s']), false, some (.num 0)⟩)])], 5⟩ 0
    [(['c'], ⟨some (.str ['s']), false, some (.num 0)⟩)]
    ⟨some (.str ['s']), false, some (.num 0)⟩ ['c']
    (Json.encode (.obj [(idK, .str (healthCheckTag ++ ['2'])),
      (resultK, .obj [(peersK, .num 7)])]))
    (healthCheckTag ++ ['2'])
    [(idK, Json.str (healthCheckTag ++ ['2'])),
     (resultK, Json.obj [(peersK, Json.num 7)])]
    [(peersK, Json.num 7)] 7
    rfl rfl rfl rfl rfl rfl rfl
  exact ⟨h.1, h.2.2.1 ['d'] (by decide)⟩

/-! ### C8: unknown-namespace ids are fatal -/

/-- C8: while consuming items for a tracked chain, an `rpc` response
carrying a truthy string id that starts with none of `extern:`,
`health-check:` and `ready-sub:` makes `nextSandboxMessage` fail with
the invariant-violation error (`throw new Error()`); conversely a
response id bearing any of the three prefixes is never handled by that
error. -/
theorem C8_unknown_namespace_fatal (st : MState) (sid : Nat)
    (m : List (List Char × Chain)) (cid payload s : List Char)
    (fs : List (List Char × Json))
    (hm : alookup st.sandboxesChains sid = some m)
    (hp : Json.parse payload = some (.obj fs))
    (hid : alookup fs idK = some (.str s))
    (hne : ¬s = []) :
    (listStartsWith s externTag = false →
     listStartsWith s healthCheckTag = false →
     listStartsWith s readySubTag = false →
     processItem st sid (.rpc cid payload) = (st, [], .thrown .bugError)
       ∧ ∀ rest, nextSandboxMessage st sid (.rpc cid payload :: rest)
           = (st, [], .failed .bugError))
    ∧ ((listStartsWith s externTag = true ∨
        listStartsWith s healthCheckTag = true ∨
        listStartsWith s readySubTag = true) →
       ∀ e, processItem st sid (.rpc cid payload) = (st, [], .thrown e) →
         ¬e = .bugError) := by
  have htr : jsTruthy (some (Json.str s)) = true := by
    simp [jsTruthy, hne]
  constructor
  · intro h1 h2 h3
    have hpi : processItem st sid (.rpc cid payload) = (st, [], .thrown .bugError) := by
      simp only [processItem, hm, hp, processRpcObj, hid, htr, h1, h2, h3]
      simp
    refine ⟨hpi, ?_⟩
    intro rest
    simp only [nextSandboxMessage, hm, hpi]
  · intro hpre e hpi
    intro hbug
    subst hbug
    rcases hpre with h1 | h2 | h3
    · simp only [processItem, hm, hp, processRpcObj, hid, htr, h1] at hpi
      rcases hparse : Json.parse (s.drop externTag.length) with _ | newId <;>
        rw [hparse] at hpi <;> simp at hpi
    · have h1 : listStartsWith s externTag = false := by
        obtain ⟨t, ht⟩ := List.isPrefixOf_iff_prefix.mp h2
        rw [← ht]
        rfl
      simp only [processItem, hm, hp, processRpcObj, hid, htr, h1, h2] at hpi
      rcases hc : alookup m cid with _ | ch
      · rw [hc] at hpi
        simp at hpi
      · rw [hc] at hpi
        rcases hr : alookup fs resultK with _ | r
        · rw [hr] at hpi
          simp at hpi
        · rw [hr] at hpi
          rcases r with _ | b | n | str | xs | gs <;> simp at hpi
    · have h1 : listStartsWith s externTag = false := by
        obtain ⟨t, ht⟩ := List.isPrefixOf_iff_prefix.mp h3
        rw [← ht]
        rfl
      have h2 : listStartsWith s healthCheckTag = false := by
        obtain ⟨t, ht⟩ := List.isPrefixOf_iff_prefix.mp h3
        rw [← ht]
        rfl
      simp only [processItem, hm, hp, processRpcObj, hid, htr, h1, h2, h3] at hpi
      rcases hc : alookup m cid with _ | ch <;> rw [hc] at hpi <;> simp at hpi


/-- C8 witness. -/
theorem C8_witness :
    (processItem (addSandbox initialState 0) 0
        (.rpc ['c'] (Json.encode (.obj [(idK, .str ("mystery:1".toList))])))
       = (addSandbox initialState 0, [], .thrown .bugError)
     ∧ nextSandboxMessage (addSandbox initialState 0) 0
         [.rpc ['c'] (Json.encode (.obj [(idK, .str ("mystery:1".toList))]))]
       = (addSandbox initialState 0, [], .failed .bugError))
    ∧ ¬JsErr.parseError = JsErr.bugError := by
  have h := C8_unknown_namespace_fatal (addSandbox initialState 0) 0 [] ['c']
    (Json.encode (.obj [(idK, .str ("mystery:1".toList))])) ("mystery:1".toList)
    [(idK, Json.str ("mystery:1".toList))] rfl rfl rfl (by decide)
  have h2 := C8_unknown_namespace_fatal (addSandbox initialState 0) 0 [] ['c']
    (Json.encode (.obj [(idK, .str externTag)])) externTag
    [(idK, Json.str externTag)] rfl rfl rfl (by decide)
  exact ⟨⟨(h.1 rfl rfl rfl).1, (h.1 rfl rfl rfl).2 []⟩,
    h2.2 (Or.inl rfl) JsErr.parseError rfl⟩


/-! ### C9: teardown and the ping scheduler -/

theorem alookup_some_ne {α β : Type} [DecidableEq α] {l : List (α × β)}
    {S k : α} {m : β} (hS : alookup l S = none) (hk : alookup l k = some m) :
    ¬k = S := by
  intro h
  rw [h, hS] at hk
  exact Option.noConfusion hk

theorem alookup_none_aset {α β : Type} [DecidableEq α] {l : List (α × β)}
    {S k : α} {v : β} (hS : alookup l S = none) (hk : ¬k = S) :
    alookup (aset l k v) S = none := by
  rw [alookup_aset, if_neg hk]
  exact hS

theorem alookup_some_mem_keys {α β : Type} [DecidableEq α] {l : List (α × β)}
    {k : α} {v : β} (h : alookup l k = some v) : k ∈ l.map Prod.fst := by
  induction l with
  | nil => exact Option.noConfusion h
  | cons p t ih =>
    obtain ⟨k0, v0⟩ := p
    rw [alookup] at h
    by_cases h0 : k0 = k
    · subst h0
      exact List.mem_cons_self _ _
    · rw [if_neg h0] at h
      exact List.mem_cons_of_mem _ (ih h)

theorem alookup_none_not_mem_keys {α β : Type} [DecidableEq α]
    {l : List (α × β)} {S : α} (hS : alookup l S = none) :
    S ∉ l.map Prod.fst := by
  induction l with
  | nil => simp
  | cons p t ih =>
    obtain ⟨k0, v0⟩ := p
    rw [alookup] at hS
    by_cases h0 : k0 = S
    · rw [if_pos h0] at hS
      exact Option.noConfusion hS
    · rw [if_neg h0] at hS
      simp only [List.map_cons, List.mem_cons]
      intro hmem
      rcases hmem with h | h
      · exact h0 h.symm
      · exact ih hS h

theorem updateChain_nottracked {st : MState} {S : Nat} (sid : Nat)
    (cid : List Char) (f : Chain → Chain)
    (hS : alookup st.sandboxesChains S = none) :
    alookup (updateChain st sid cid f).sandboxesChains S = none := by
  rcases h1 : alookup st.sandboxesChains sid with _ | m
  · rw [show updateChain st sid cid f = st from by simp only [updateChain, h1]]
    exact hS
  · rcases h2 : alookup m cid with _ | ch
    · rw [show updateChain st sid cid f = st from by
        simp only [updateChain, h1, h2]]
      exact hS
    · rw [show updateChain st sid cid f
          = (⟨aset st.sandboxesChains sid (aset m cid (f ch)),
              st.nextHealthCheckRqId⟩ : MState) from by
        simp only [updateChain, h1, h2]]
      exact alookup_none_aset hS (alookup_some_ne hS h1)

theorem processRpcObj_nottracked (st : MState) (sid : Nat)
    (cid payload : List Char) (fs : List (List Char × Json))
    (chainOpt : Option Chain) {S : Nat}
    (hS : alookup st.sandboxesChains S = none) :
    alookup (processRpcObj st sid cid payload fs chainOpt).1.sandboxesChains S
      = none := by
  unfold processRpcObj
  dsimp only
  repeat' split
  all_goals
    first
      | exact hS
      | exact updateChain_nottracked sid cid _ hS

theorem processItem_nottracked (st : MState) (sid : Nat) (i : InnerItem)
    {S : Nat} (hS : alookup st.sandboxesChains S = none) :
    alookup (processItem st sid i).1.sandboxesChains S = none := by
  cases i with
  | chainReady cid =>
    rcases h1 : alookup st.sandboxesChains sid with _ | m
    · rw [show (processItem st sid (.chainReady cid)).1
          = (⟨st.sandboxesChains, st.nextHealthCheckRqId + 1⟩ : MState) from by
        simp only [processItem, h1]]
      exact hS
    · rw [show (processItem st sid (.chainReady cid)).1
          = (⟨aset st.sandboxesChains sid (aset m cid ⟨none, true, some (.num 0)⟩),
              st.nextHealthCheckRqId + 1⟩ : MState) from by
        simp only [processItem, h1]]
      exact alookup_none_aset hS (alookup_some_ne hS h1)
  | rpc cid payload =>
    rcases h1 : alookup st.sandboxesChains sid with _ | m
    · rw [show processItem st sid (.rpc cid payload)
          = (st, [], .thrown .typeError) from by simp only [processItem, h1]]
      exact hS
    · rcases h2 : Json.parse payload with _ | j
      · rw [show processItem st sid (.rpc cid payload)
            = (st, [], .thrown .parseError) from by simp only [processItem, h1, h2]]
        exact hS
      · cases j with
        | obj fs =>
          rw [show processItem st sid (.rpc cid payload)
              = processRpcObj st sid cid payload fs (alookup m cid) from by
            simp only [processItem, h1, h2]]
          exact processRpcObj_nottracked st sid cid payload fs _ hS
        | null =>
          rw [show processItem st sid (.rpc cid payload)
              = (st, [], .thrown .typeError) from by simp only [processItem, h1, h2]]
          exact hS
        | bool b =>
          rw [show processItem st sid (.rpc cid payload)
              = (st, [], .ret (.item (.rpc cid payload))) from by
            simp only [processItem, h1, h2]]
          exact hS
        | num n =>
          rw [show processItem st sid (.rpc cid payload)
              = (st, [], .ret (.item (.rpc cid payload))) from by
            simp only [processItem, h1, h2]]
          exact hS
        | str s2 =>
          rw [show processItem st sid (.rpc cid payload)
              = (st, [], .ret (.item (.rpc cid payload))) from by
            simp only [processItem, h1, h2]]
          exact hS
        | arr xs =>
          rw [show processItem st sid (.rpc cid payload)
              = (st, [], .ret (.item (.rpc cid payload))) from by
            simp only [processItem, h1, h2]]
          exact hS
  | errItem cid =>
    rcases h1 : alookup st.sandboxesChains sid with _ | m
    · rw [show (processItem st sid (.errItem cid)).1
          = (⟨st.sandboxesChains, st.nextHealthCheckRqId⟩ : MState) from by
        simp only [processItem, h1]]
      exact hS
    · rw [show (processItem st sid (.errItem cid)).1
          = (⟨aset st.sandboxesChains sid (adel m cid),
              st.nextHealthCheckRqId⟩ : MState) from by
        simp only [processItem, h1]]
      exact alookup_none_aset hS (alookup_some_ne hS h1)
  | otherItem => exact hS

theorem processRpcObj_sent (st : MState) (sid : Nat) (cid payload : List Char)
    (fs : List (List Char × Json)) (chainOpt : Option Chain) :
    (processRpcObj st sid cid payload fs chainOpt).2.1 = []
    ∨ (processRpcObj st sid cid payload fs chainOpt).2.1
        = [⟨sid, cid, followReq st.nextHealthCheckRqId⟩]
    ∨ (processRpcObj st sid cid payload fs chainOpt).2.1
        = [⟨sid, cid, healthReq st.nextHealthCheckRqId⟩] := by
  unfold processRpcObj
  dsimp only
  repeat' split
  all_goals
    first
      | exact Or.inl rfl
      | exact Or.inr (Or.inl rfl)
      | exact Or.inr (Or.inr rfl)

theorem processItem_sids (st : MState) (sid : Nat) (i : InnerItem) :
    ∀ msg ∈ (processItem st sid i).2.1, msg.sandboxId = sid := by
  cases i with
  | chainReady cid =>
    intro msg hmsg
    rw [show (processItem st sid (.chainReady cid)).2.1
        = [⟨sid, cid, followReq st.nextHealthCheckRqId⟩] from rfl] at hmsg
    rw [List.mem_singleton] at hmsg
    rw [hmsg]
  | rpc cid payload =>
    intro msg hmsg
    rcases h1 : alookup st.sandboxesChains sid with _ | m
    · rw [show (processItem st sid (.rpc cid payload)).2.1 = [] from by
        simp only [processItem, h1]] at hmsg
      exact absurd hmsg (List.not_mem_nil msg)
    · rcases h2 : Json.parse payload with _ | j
      · rw [show (processItem st sid (.rpc cid payload)).2.1 = [] from by
          simp only [processItem, h1, h2]] at hmsg
        exact absurd hmsg (List.not_mem_nil msg)
      · cases j with
        | obj fs =>
          rw [show (processItem st sid (.rpc cid payload)).2.1
              = (processRpcObj st sid cid payload fs (alookup m cid)).2.1 from by
            simp only [processItem, h1, h2]] at hmsg
          rcases processRpcObj_sent st sid cid payload fs (alookup m cid) with
            h | h | h <;> rw [h] at hmsg
          · exact absurd hmsg (List.not_mem_nil msg)
          · rw [List.mem_singleton] at hmsg
            rw [hmsg]
          · rw [List.mem_singleton] at hmsg
            rw [hmsg]
        | null =>
          rw [show (processItem st sid (.rpc cid payload)).2.1 = [] from by
            simp only [processItem, h1, h2]] at hmsg
          exact absurd hmsg (List.not_mem_nil msg)
        | bool b =>
          rw [show (processItem st sid (.rpc cid payload)).2.1 = [] from by
            simp only [processItem, h1, h2]] at hmsg
          exact absurd hmsg (List.not_mem_nil msg)
        | num n =>
          rw [show (processItem st sid (.rpc cid payload)).2.1 = [] from by
            simp only [processItem, h1, h2]] at hmsg
          exact absurd hmsg (List.not_mem_nil msg)
        | str s2 =>
          rw [show (processItem st sid (.rpc cid payload)).2.1 = [] from by
            simp only [processItem, h1, h2]] at hmsg
          exact absurd hmsg (List.not_mem_nil msg)
        | arr xs =>
          rw [show (processItem st sid (.rpc cid payload)).2.1 = [] from by
            simp only [processItem, h1, h2]] at hmsg
          exact absurd hmsg (List.not_mem_nil msg)
  | errItem cid =>
    intro msg hmsg
    rw [show (processItem st sid (.errItem cid)).2.1 = [] from rfl] at hmsg
    exact absurd hmsg (List.not_mem_nil msg)
  | otherItem =>
    intro msg hmsg
    exact absurd hmsg (List.not_mem_nil msg)

theorem nextSandboxMessage_nottracked (sid : Nat) (items : List InnerItem)
    {S : Nat} :
    ∀ st : MState, alookup st.sandboxesChains S = none →
      alookup (nextSandboxMessage st sid items).1.sandboxesChains S = none
      ∧ ∀ msg ∈ (nextSandboxMessage st sid items).2.1, ¬msg.sandboxId = S := by
  induction items with
  | nil =>
    intro st hS
    exact ⟨hS, fun msg hmsg => absurd hmsg (List.not_mem_nil msg)⟩
  | cons i rest ih =>
    intro st hS
    rw [nextSandboxMessage]
    rcases h1 : alookup st.sandboxesChains sid with _ | m
    · exact ⟨hS, fun msg hmsg => absurd hmsg (List.not_mem_nil msg)⟩
    · have hsid : ¬sid = S := alookup_some_ne hS h1
      have hpres := processItem_nottracked st sid i hS
      have hsids := processItem_sids st sid i
      rcases hp : processItem st sid i with ⟨st1, sent, ctl⟩
      rw [hp] at hpres hsids
      cases ctl with
      | ret m2 =>
        refine ⟨hpres, ?_⟩
        intro msg hmsg
        rw [hsids msg hmsg]
        exact hsid
      | cont =>
        obtain ⟨ih1, ih2⟩ := ih st1 hpres
        refine ⟨ih1, ?_⟩
        intro msg hmsg
        rcases List.mem_append.mp hmsg with h | h
        · rw [hsids msg h]
          exact hsid
        · exact ih2 msg h
      | thrown e =>
        refine ⟨hpres, ?_⟩
        intro msg hmsg
        rw [hsids msg hmsg]
        exact hsid

theorem sendPingsChains_sids (sid : Nat) (ctr : Nat)
    (l : List (List Char × Chain)) :
    ∀ msg ∈ (sendPingsChains sid ctr l).2,
      msg.sandboxId = sid ∧ (alookup l msg.chainId).isSome = true := by
  induction l generalizing ctr with
  | nil => intro msg hmsg; exact absurd hmsg (List.not_mem_nil msg)
  | cons p t ih =>
    obtain ⟨cid, ch⟩ := p
    intro msg hmsg
    rw [show (sendPingsChains sid ctr ((cid, ch) :: t)).2
        = ⟨sid, cid, healthReq ctr⟩ :: (sendPingsChains sid (ctr + 1) t).2
        from rfl] at hmsg
    rcases List.mem_cons.mp hmsg with rfl | h'
    · refine ⟨rfl, ?_⟩
      rw [show alookup ((cid, ch) :: t) cid = some ch from by
        rw [alookup, if_pos rfl]]
      rfl
    · obtain ⟨h1, h2⟩ := ih (ctr + 1) msg h'
      refine ⟨h1, ?_⟩
      rw [alookup]
      by_cases hc : cid = msg.chainId
      · rw [if_pos hc]
        rfl
      · rw [if_neg hc]
        exact h2

theorem sendPingsAux_tracked (L : List (Nat × List (List Char × Chain))) :
    ∀ ctr, (L.map Prod.fst).Nodup →
      ∀ msg ∈ (sendPingsAux ctr L).2, ∃ m,
        alookup L msg.sandboxId = some m
        ∧ (alookup m msg.chainId).isSome = true := by
  induction L with
  | nil => intro ctr hnd msg hmsg; exact absurd hmsg (List.not_mem_nil msg)
  | cons p t ih =>
    obtain ⟨sid, mm⟩ := p
    intro ctr hnd msg hmsg
    rw [List.map_cons, List.nodup_cons] at hnd
    rw [show (sendPingsAux ctr ((sid, mm) :: t)).2
        = (sendPingsChains sid ctr mm).2
            ++ (sendPingsAux (sendPingsChains sid ctr mm).1 t).2 from rfl] at hmsg
    rcases List.mem_append.mp hmsg with h | h
    · obtain ⟨h1, h2⟩ := sendPingsChains_sids sid ctr mm msg h
      refine ⟨mm, ?_, h2⟩
      rw [h1, alookup, if_pos rfl]
    · obtain ⟨m, hm1, hm2⟩ := ih _ hnd.2 msg h
      refine ⟨m, ?_, hm2⟩
      rw [alookup]
      have hne : ¬sid = msg.sandboxId := by
        intro hh
        exact hnd.1 (hh ▸ alookup_some_mem_keys hm1)
      rw [if_neg hne]
      exact hm1

theorem sendPingsAux_keys (ctr : Nat)
    (L : List (Nat × List (List Char × Chain))) :
    ∀ msg ∈ (sendPingsAux ctr L).2, msg.sandboxId ∈ L.map Prod.fst := by
  induction L generalizing ctr with
  | nil => intro msg hmsg; exact absurd hmsg (List.not_mem_nil msg)
  | cons p t ih =>
    obtain ⟨sid, mm⟩ := p
    intro msg hmsg
    rw [show (sendPingsAux ctr ((sid, mm) :: t)).2
        = (sendPingsChains sid ctr mm).2
            ++ (sendPingsAux (sendPingsChains sid ctr mm).1 t).2 from rfl] at hmsg
    rw [List.map_cons, List.mem_cons]
    rcases List.mem_append.mp hmsg with h | h
    · exact Or.inl (sendPingsChains_sids sid ctr mm msg h).1
    · exact Or.inr (ih _ msg h)

theorem sandboxMessage_nottracked (st : MState) (sid : Nat) (m : ToExtension)
    {S : Nat} (hS : alookup st.sandboxesChains S = none) :
    alookup (sandboxMessage st sid m).1.sandboxesChains S = none := by
  cases m with
  | removeChain cid =>
    rcases h1 : alookup st.sandboxesChains sid with _ | mm
    · rw [show (sandboxMessage st sid (.removeChain cid)).1 = st from by
        simp only [sandboxMessage, h1]]
      exact hS
    · rw [show (sandboxMessage st sid (.removeChain cid)).1
          = (⟨aset st.sandboxesChains sid (adel mm cid),
              st.nextHealthCheckRqId⟩ : MState) from by
        simp only [sandboxMessage, h1]]
      exact alookup_none_aset hS (alookup_some_ne hS h1)
  | rpcOut cid payload =>
    rcases h1 : Json.parse payload with _ | j
    · rw [show (sandboxMessage st sid (.rpcOut cid payload)).1 = st from by
        simp only [sandboxMessage, h1]]
      exact hS
    · cases j <;>
        first
          | (rw [show (sandboxMessage st sid (.rpcOut cid payload)).1 = st from by
              simp only [sandboxMessage, h1]]
             exact hS)
  | otherExt => exact hS

theorem addSandbox_nottracked (st : MState) (sid : Nat) {S : Nat}
    (hS : alookup st.sandboxesChains S = none) (hsid : ¬sid = S) :
    alookup (addSandbox st sid).sandboxesChains S = none := by
  rcases h1 : alookup st.sandboxesChains sid with _ | m
  · rw [show (addSandbox st sid).sandboxesChains
        = aset st.sandboxesChains sid [] from by simp only [addSandbox, h1]]
    exact alookup_none_aset hS hsid
  · rw [show addSandbox st sid = st from by simp only [addSandbox, h1]]
    exact hS

theorem deleteSandbox_nottracked (st : MState) (sid : Nat) {S : Nat}
    (hS : alookup st.sandboxesChains S = none) :
    alookup (deleteSandbox st sid).sandboxesChains S = none := by
  rcases h1 : alookup st.sandboxesChains sid with _ | m
  · rw [show deleteSandbox st sid = st from by simp only [deleteSandbox, h1]]
    exact hS
  · rw [show (deleteSandbox st sid).sandboxesChains
        = adel st.sandboxesChains sid from by simp only [deleteSandbox, h1]]
    by_cases hc : sid = S
    · rw [← hc]
      exact alookup_adel _ _
    · rw [alookup_adel_ne _ _ _ hc]
      exact hS

theorem applyOp_nottracked (st : MState) (op : Op) {S : Nat}
    (hS : alookup st.sandboxesChains S = none)
    (hop : ∀ sid, op = Op.addSandboxOp sid → ¬sid = S) :
    alookup (applyOp st op).1.sandboxesChains S = none
    ∧ ∀ msg ∈ (applyOp st op).2.1, ¬msg.sandboxId = S := by
  cases op with
  | nextMsg sid items => exact nextSandboxMessage_nottracked sid items st hS
  | pings =>
    refine ⟨hS, ?_⟩
    intro msg hmsg
    intro hc
    have hk := sendPingsAux_keys st.nextHealthCheckRqId st.sandboxesChains msg hmsg
    rw [hc] at hk
    exact alookup_none_not_mem_keys hS hk
  | clientMsg sid m =>
    refine ⟨sandboxMessage_nottracked st sid m hS, ?_⟩
    intro msg hmsg
    exact absurd hmsg (List.not_mem_nil msg)
  | addSandboxOp sid =>
    refine ⟨addSandbox_nottracked st sid hS (hop sid rfl), ?_⟩
    intro msg hmsg
    exact absurd hmsg (List.not_mem_nil msg)
  | deleteSandboxOp sid =>
    refine ⟨deleteSandbox_nottracked st sid hS, ?_⟩
    intro msg hmsg
    exact absurd hmsg (List.not_mem_nil msg)

theorem runOps_nottracked (ops : List Op) {S : Nat} :
    ∀ st : MState, alookup st.sandboxesChains S = none →
      (∀ sid, Op.addSandboxOp sid ∈ ops → ¬sid = S) →
      ∀ msg ∈ (runOps st ops).2.1, ¬msg.sandboxId = S := by
  induction ops with
  | nil =>
    intro st hS hops msg hmsg
    exact absurd hmsg (List.not_mem_nil msg)
  | cons op t ih =>
    intro st hS hops msg hmsg
    obtain ⟨h1, h2⟩ := applyOp_nottracked st op hS
      (fun sid hop => hops sid (hop ▸ List.mem_cons_self _ _))
    rw [show (runOps st (op :: t)).2.1
        = (applyOp st op).2.1 ++ (runOps (applyOp st op).1 t).2.1 from rfl] at hmsg
    rcases List.mem_append.mp hmsg with h | h
    · exact h2 msg h
    · exact ih (applyOp st op).1 h1
        (fun sid hmem => hops sid (List.mem_cons_of_mem _ hmem)) msg h

/-- C9: after `deleteSandbox(S)`, all of S's per-chain health records are
discarded; every firing of the ping scheduler emits `system_health`
requests only for (sandbox, chain) pairs currently tracked; and no
internally generated request in any subsequent trace that does not add S
again references S. -/
theorem C9_teardown_pings :
    (∀ (st : MState) (S : Nat),
       alookup (deleteSandbox st S).sandboxesChains S = none)
    ∧ (∀ st : MState, (st.sandboxesChains.map Prod.fst).Nodup →
       ∀ msg ∈ (sendPings st).2, ∃ m,
         alookup st.sandboxesChains msg.sandboxId = some m
         ∧ (alookup m msg.chainId).isSome = true)
    ∧ (∀ (st : MState) (S : Nat) (ops : List Op),
       (∀ sid, Op.addSandboxOp sid ∈ ops → ¬sid = S) →
       ∀ msg ∈ (runOps (deleteSandbox st S) ops).2.1, ¬msg.sandboxId = S) := by
  have h0 : ∀ (st : MState) (S : Nat),
      alookup (deleteSandbox st S).sandboxesChains S = none := by
    intro st S
    rcases h1 : alookup st.sandboxesChains S with _ | m
    · rw [show deleteSandbox st S = st from by simp only [deleteSandbox, h1]]
      exact h1
    · rw [show (deleteSandbox st S).sandboxesChains
          = adel st.sandboxesChains S from by simp only [deleteSandbox, h1]]
      exact alookup_adel _ _
  refine ⟨h0, ?_, ?_⟩
  · intro st hnd msg hmsg
    exact sendPingsAux_tracked st.sandboxesChains st.nextHealthCheckRqId hnd msg hmsg
  · intro st S ops hops
    exact runOps_nottracked ops (deleteSandbox st S) (h0 st S) hops


/-- C9 witness. -/
theorem C9_witness :
    alookup (deleteSandbox (addSandbox initialState 0) 0).sandboxesChains 0 = none
    ∧ (∃ m, alookup
          (⟨[(0, [(['c'], (⟨none, true, some (.num 0)⟩ : Chain))])], 0⟩ :
            MState).sandboxesChains
          (SentRpc.mk 0 ['c'] (healthReq 0)).sandboxId = some m
        ∧ (alookup m (SentRpc.mk 0 ['c'] (healthReq 0)).chainId).isSome = true)
    ∧ ¬(SentRpc.mk 1 ['c'] (followReq 0)).sandboxId = 0 := by
  refine ⟨C9_teardown_pings.1 (addSandbox initialState 0) 0, ?_, ?_⟩
  · refine C9_teardown_pings.2.1
      (⟨[(0, [(['c'], (⟨none, true, some (.num 0)⟩ : Chain))])], 0⟩ : MState)
      (by simp) (SentRpc.mk 0 ['c'] (healthReq 0)) ?_
    rw [show (sendPings
        (⟨[(0, [(['c'], (⟨none, true, some (.num 0)⟩ : Chain))])], 0⟩ : MState)).2
      = [SentRpc.mk 0 ['c'] (healthReq 0)] from rfl]
    exact List.mem_cons_self _ _
  · refine C9_teardown_pings.2.2 (addSandbox initialState 0) 0
      [.addSandboxOp 1, .nextMsg 1 [.chainReady ['c']]] ?_
      (SentRpc.mk 1 ['c'] (followReq 0)) ?_
    · intro sid h
      simp only [List.mem_cons, List.not_mem_nil, or_false] at h
      rcases h with h | h
      · injection h with h2
        subst h2
        decide
      · exact Op.noConfusion h
    · rw [show (runOps (deleteSandbox (addSandbox initialState 0) 0)
          [.addSandboxOp 1, .nextMsg 1 [.chainReady ['c']]]).2.1
        = [SentRpc.mk 1 ['c'] (followReq 0)] from rfl]
      exact List.mem_cons_self _ _


end SCHealth
